import Mathlib

/-!
Verification of the customs classification-and-matching engine of the
shipstation-customs-declarations repository.

The JavaScript sources are shallowly embedded: strings are Lean `String`s
(processed as `List Char`), JS numbers are rationals (`ℚ`), missing/`null`
fields are `Option`s, JS truthiness of a string is non-emptiness and of a
number is non-zeroness, and the small set of regular expressions used by the
code is interpreted by a tiny executable matcher (`reSearch`) covering
exactly the constructs those patterns use (character classes, `*`, `?`,
optional two-letter groups, and the word boundary `\b`).
-/

namespace JsStr

/-- ASCII lower-casing, the fragment of `String.prototype.toLowerCase`
relevant to the embedded patterns (all of which are ASCII). -/
def asciiLower (c : Char) : Char :=
  if 'A' ≤ c ∧ c ≤ 'Z' then Char.ofNat (c.toNat + 32) else c

/-- Decimal digit test, the class `[0-9]`. -/
def isDigitC (c : Char) : Bool :=
  '0' ≤ c && c ≤ '9'

/-- The class `[a-z]`. -/
def isLowerC (c : Char) : Bool :=
  'a' ≤ c && c ≤ 'z'

/-- The class `[a-z0-9]`. -/
def isLowerAN (c : Char) : Bool :=
  isLowerC c || isDigitC c

/-- JavaScript whitespace (`\s`): ASCII whitespace plus the Unicode space
code points listed by ECMA-262. -/
def isJsWs (c : Char) : Bool :=
  c == ' ' || c == '\t' || c == '\n' || c.toNat == 11 || c.toNat == 12 ||
  c == '\r' || c.toNat == 0xa0 || c.toNat == 0x1680 ||
  (0x2000 ≤ c.toNat && c.toNat ≤ 0x200a) || c.toNat == 0x2028 ||
  c.toNat == 0x2029 || c.toNat == 0x202f || c.toNat == 0x205f ||
  c.toNat == 0x3000 || c.toNat == 0xfeff

/-- Word characters for the regex boundary `\b`: `[A-Za-z0-9_]`. -/
def isWordChar (c : Char) : Bool :=
  ('a' ≤ c && c ≤ 'z') || ('A' ≤ c && c ≤ 'Z') || isDigitC c || c == '_'

/-- Helper of `collapseWs`; `prevWs` records whether the previous character
belonged to a whitespace run already emitted as one space. -/
def collapseWsAux (prevWs : Bool) : List Char → List Char
  | [] => []
  | c :: cs =>
    if isJsWs c then
      if prevWs then collapseWsAux true cs else ' ' :: collapseWsAux true cs
    else c :: collapseWsAux false cs

/-- Collapse each run of JS whitespace to a single space
(the `replace(/\s+/g, ' ')` step). -/
def collapseWs (l : List Char) : List Char :=
  collapseWsAux false l

/-- Trim leading and trailing spaces (after `collapseWs` the only whitespace
left is the plain space, so this is JS `trim()` on such strings). -/
def trimSp (l : List Char) : List Char :=
  ((l.dropWhile (· == ' ')).reverse.dropWhile (· == ' ')).reverse

/-- Helper of `splitSp`: accumulate the current piece (reversed). -/
def splitSpAux : List Char → List Char → List (List Char)
  | [], acc => [acc.reverse]
  | c :: cs, acc =>
    if c == ' ' then acc.reverse :: splitSpAux cs [] else splitSpAux cs (c :: acc)

/-- JS `split(' ')`: split on single spaces, keeping empty pieces. -/
def splitSp (l : List Char) : List (List Char) :=
  splitSpAux l []

/-- JS substring containment, `String.prototype.includes`. -/
def containsSub : List Char → List Char → Bool
  | _, [] => true
  | [], _ :: _ => false
  | c :: cs, needle => needle.isPrefixOf (c :: cs) || containsSub cs needle

end JsStr

namespace Rx

open JsStr

/-- One element of a (linear) regular-expression alternative.  The patterns
appearing in the sources only use single-character classes, `*` and `?` over
a class, one optional two-letter group (`(es)?`), and `\b`. -/
inductive RElem where
  | cls (p : Char → Bool)
  | star (p : Char → Bool)
  | qmark (p : Char → Bool)
  | opt2 (a b : Char)
  | bound
  | bos
  | eos
deriving Inhabited

/-- A literal string as a sequence of single-character classes. -/
def litE (s : String) : List RElem :=
  s.data.map (fun c => RElem.cls (· == c))

/-- Word-boundary test between the previous character (none at the start)
and the rest of the input. -/
def atBound (prev : Option Char) (s : List Char) : Bool :=
  let pw := match prev with
    | some c => isWordChar c
    | none => false
  let nw := match s with
    | c :: _ => isWordChar c
    | [] => false
  pw != nw

/-- Fueled matcher: does `es` match a prefix of `s`, given the character just
before the current position?  Each recursive call decreases the pair
(length of input, length of pattern) lexicographically, so the fuel used by
`reSearch` below is always sufficient. -/
def reMatch (fuel : ℕ) (es : List RElem) (prev : Option Char) (s : List Char) : Bool :=
  match fuel with
  | 0 => false
  | fuel + 1 =>
    match es with
    | [] => true
    | .cls p :: es' =>
      match s with
      | [] => false
      | c :: cs => p c && reMatch fuel es' (some c) cs
    | .star p :: es' =>
      reMatch fuel es' prev s ||
        (match s with
         | [] => false
         | c :: cs => p c && reMatch fuel (.star p :: es') (some c) cs)
    | .qmark p :: es' =>
      reMatch fuel es' prev s ||
        (match s with
         | [] => false
         | c :: cs => p c && reMatch fuel es' (some c) cs)
    | .opt2 a b :: es' =>
      reMatch fuel es' prev s ||
        (match s with
         | c :: d :: cs => c == a && d == b && reMatch fuel es' (some d) cs
         | _ => false)
    | .bound :: es' => atBound prev s && reMatch fuel es' prev s
    | .bos :: es' =>
      (match prev with
       | none => true
       | some _ => false) && reMatch fuel es' prev s
    | .eos :: es' =>
      (match s with
       | [] => true
       | _ :: _ => false) && reMatch fuel es' prev s

/-- Search for a match of `es` starting at any position of `s`. -/
def reSearch (es : List RElem) (prev : Option Char) (s : List Char) : Bool :=
  reMatch ((s.length + 1) * (es.length + 1) + 1) es prev s ||
    (match s with
     | [] => false
     | c :: cs => reSearch es (some c) cs)

/-- A pattern: a disjunction of linear alternatives (top-level expansions of
the alternations occurring in the sources). -/
structure RPat where
  alts : List (List RElem)

/-- `RegExp.prototype.test`.  The input is ASCII-lowered; every embedded
pattern is either case-insensitive or applied by the source to an already
lower-cased string, so this uniformly models both. -/
def rtest (p : RPat) (str : String) : Bool :=
  p.alts.any (fun es => reSearch es none (str.data.map asciiLower))

/-- The JS `.` (any character except line terminators). -/
def dotC (c : Char) : Bool :=
  !(c == '\n' || c == '\r' || c.toNat == 0x2028 || c.toNat == 0x2029)

end Rx

namespace CustomsRules

open JsStr Rx

/-- Lower-case a whole string (`String.prototype.toLowerCase`, ASCII part). -/
def lowerStr (s : String) : String :=
  ⟨s.data.map asciiLower⟩

/-- `String.prototype.includes`. -/
def strIncludes (s sub : String) : Bool :=
  containsSub s.data sub.data

/-- `\s` as a single mandatory whitespace character followed by `\s*`,
i.e. the expansion of `\s+`. -/
def wsP : List RElem :=
  [RElem.cls isJsWs, RElem.star isJsWs]

/-- `\s*`. -/
def wsS : RElem :=
  RElem.star isJsWs

/-- `s?` (optional plural). -/
def qS : RElem :=
  RElem.qmark (· == 's')

/-- `STICKER_KEYWORDS`: the twelve sticker-forcing patterns. -/
def STICKER_KEYWORDS : List RPat :=
  [ ⟨[litE "monthly" ++ wsP ++ litE "tab" ++ [qS]]⟩,
    ⟨[[RElem.bound] ++ litE "sticker" ++ [qS, RElem.bound]]⟩,
    ⟨[litE "time" ++ [wsS] ++ litE "management"]⟩,
    ⟨[litE "square" ++ [wsS] ++ litE "bullet" ++ [qS]]⟩,
    ⟨[[RElem.bound] ++ litE "finance" ++ [RElem.bound]]⟩,
    ⟨[[RElem.bound] ++ litE "wellness" ++ [RElem.bound]]⟩,
    ⟨[litE "wildflower" ++ [qS]]⟩,
    ⟨[litE "botanical" ++ wsP ++ litE "sticker" ++ [qS]]⟩,
    ⟨[litE "sticker" ++ [wsS] ++ litE "sheet"]⟩,
    ⟨[litE "shaded" ++ wsP ++ litE "box" ++ [RElem.opt2 'e' 's']]⟩,
    ⟨[litE "list" ++ [qS, wsS] ++ litE "-" ++ [wsS] ++ litE "top" ++ [wsS] ++ litE "three"]⟩,
    ⟨[[RElem.bound] ++ litE "highlight" ++ [qS, RElem.bound]]⟩ ]

/-- `INSERT_KEYWORDS`: `\b(inserts)\b`. -/
def INSERT_KEYWORDS : RPat :=
  ⟨[[RElem.bound] ++ litE "inserts" ++ [RElem.bound]]⟩

/-- `PLANNER_KEYWORDS`: `\b(planner)\b`. -/
def PLANNER_KEYWORDS : RPat :=
  ⟨[[RElem.bound] ++ litE "planner" ++ [RElem.bound]]⟩

/-- `NOTEBOOK_KEYWORDS`: `\b(notebook|sketchbook)\b`, alternation expanded. -/
def NOTEBOOK_KEYWORDS : RPat :=
  ⟨[[RElem.bound] ++ litE "notebook" ++ [RElem.bound],
    [RElem.bound] ++ litE "sketchbook" ++ [RElem.bound]]⟩

/-- `STICKY_KEYWORDS`: `\b(sticky|stickies|sticky\s*notes?|post-?its?)\b`. -/
def STICKY_KEYWORDS : RPat :=
  ⟨[[RElem.bound] ++ litE "sticky" ++ [RElem.bound],
    [RElem.bound] ++ litE "stickies" ++ [RElem.bound],
    [RElem.bound] ++ litE "sticky" ++ [wsS] ++ litE "note" ++ [qS, RElem.bound],
    [RElem.bound] ++ litE "post" ++ [RElem.qmark (· == '-')] ++ litE "it" ++ [qS, RElem.bound]]⟩

/-- `NOTEPAD_KEYWORDS`: `\b(notepad)\b`. -/
def NOTEPAD_KEYWORDS : RPat :=
  ⟨[[RElem.bound] ++ litE "notepad" ++ [RElem.bound]]⟩

/-- `\bmt\s+washi\b`. -/
def mtWashiRx : RPat :=
  ⟨[[RElem.bound] ++ litE "mt" ++ wsP ++ litE "washi" ++ [RElem.bound]]⟩

/-- `\bB5\b` (case-insensitive). -/
def b5Rx : RPat :=
  ⟨[[RElem.bound] ++ litE "b5" ++ [RElem.bound]]⟩

/-- `\bpen\b`. -/
def penRx : RPat :=
  ⟨[[RElem.bound] ++ litE "pen" ++ [RElem.bound]]⟩

/-- `\belastic\b`. -/
def elasticRx : RPat :=
  ⟨[[RElem.bound] ++ litE "elastic" ++ [RElem.bound]]⟩

/-- `\bcharm\b`. -/
def charmRx : RPat :=
  ⟨[[RElem.bound] ++ litE "charm" ++ [RElem.bound]]⟩

/-- `\bclip` (no closing boundary in the source). -/
def clipRx : RPat :=
  ⟨[[RElem.bound] ++ litE "clip"]⟩

/-- `\btape\b`. -/
def tapeRx : RPat :=
  ⟨[[RElem.bound] ++ litE "tape" ++ [RElem.bound]]⟩

/-- `\bpocket\b`. -/
def pocketRx : RPat :=
  ⟨[[RElem.bound] ++ litE "pocket" ++ [RElem.bound]]⟩

/-- `(bracelet|pendant|stud|earring|jewellery|jewelry)` — plain substrings. -/
def jewelryRx : RPat :=
  ⟨[litE "bracelet", litE "pendant", litE "stud", litE "earring",
    litE "jewellery", litE "jewelry"]⟩

/-- `titleForcesSticker`. -/
def titleForcesSticker (title : String) : Bool :=
  STICKER_KEYWORDS.any (fun rx => rtest rx title)

/-- `identifyProductFromTitle`.  The source lower-cases the title once and
tests some patterns on the lower-cased copy and some (case-insensitively) on
the original; `rtest` lower-cases its input, which models both uniformly. -/
def identifyProductFromTitle (title : String) : Option String :=
  if titleForcesSticker title then some "sticker"
  else if rtest INSERT_KEYWORDS title then some "insert"
  else if rtest STICKY_KEYWORDS title then some "sticky"
  else if rtest PLANNER_KEYWORDS title then some "planner"
  else if rtest mtWashiRx title then some "tape"
  else if rtest NOTEBOOK_KEYWORDS title then
    (if rtest b5Rx title then some "notebook-b5" else some "notebook")
  else if rtest NOTEPAD_KEYWORDS title then some "notepad"
  else if rtest penRx title then some "pen"
  else if rtest elasticRx title then some "elastic"
  else if rtest charmRx title then some "charm"
  else if rtest clipRx title then some "clip"
  else if rtest tapeRx title then some "tape"
  else if rtest pocketRx title then some "pocket"
  else if rtest jewelryRx title then some "jewelry"
  else none

/-- The fixed (HS code, description) pair returned by
`getCorrectHSAndDescription`. -/
structure HSDesc where
  hs : String
  desc : String
deriving DecidableEq

/-- `getCorrectHSAndDescription` (the duplicated, unreachable second
`'tape'` case of the JS `switch` is dropped). -/
def getCorrectHSAndDescription (productType : String) : Option HSDesc :=
  match productType with
  | "sticker" => some ⟨"4911998000", "Paper sticker"⟩
  | "sticky" => some ⟨"4820102020", "Sticky notepad"⟩
  | "planner" => some ⟨"4820102010", "Planner agenda (bound diary)"⟩
  | "notebook-b5" => some ⟨"4820102030", "Notebook (sewn journal, B5 size)"⟩
  | "notebook" => some ⟨"4820102060", "Notebook (bound journal)"⟩
  | "notepad" => some ⟨"4820102020", "Notepad"⟩
  | "insert" => some ⟨"4820900000", "Planner inserts (loose refills)"⟩
  | "pen" => some ⟨"9608100000", "Gel ink pen"⟩
  | "elastic" => some ⟨"6307909800", "Elastic for notebook"⟩
  | "charm" => some ⟨"7117909000", "Charm for notebook ribbon"⟩
  | "clip" => some ⟨"8305903010", "Office paper clips"⟩
  | "tape" => some ⟨"4811412100", "Decorative tape for journaling"⟩
  | "pocket" => some ⟨"4811412100", "Paper pocket for notebook"⟩
  | "jewelry" => some ⟨"7113115000", "Sterling silver jewellery"⟩
  | _ => none

/-- `normHS`: keep only decimal digits. -/
def normHS (code : String) : String :=
  ⟨code.data.filter isDigitC⟩

/-- `String.prototype.startsWith`. -/
def strStarts (s pre : String) : Bool :=
  pre.data.isPrefixOf s.data

/-- `fixMalformedHS`: repair only structurally malformed codes
(`slice(0, 3)` and `slice(3)` are `take`/`drop` on the characters). -/
def fixMalformedHS (code : String) : String :=
  let cleaned : String := ⟨code.data.filter isDigitC⟩
  if cleaned.length == 8 && strStarts cleaned "2048" then
    "4" ++ cleaned
  else if cleaned.length == 7 && strStarts cleaned "820" then
    "4" ++ (⟨cleaned.data.take 3⟩ : String) ++ "0" ++ (⟨cleaned.data.drop 3⟩ : String)
  else if cleaned == "48201020" then
    cleaned ++ "00"
  else
    cleaned

/-- `HS_DESCRIPTION_RULES`: exact code → description (description may
inspect the title).  Alternations such as `(stud|studs)` are substring
tests for the shorter word. -/
def HS_DESCRIPTION_RULES : List (String × (String → String)) :=
  [ ("4820102010", fun _ => "Planner agenda (bound diary)"),
    ("4820102060", fun _ => "Notebook (bound journal)"),
    ("4820102030", fun _ => "Notebook (sewn journal, B5 size)"),
    ("4820102020", fun title =>
      if strIncludes (lowerStr title) "sticky" || strIncludes (lowerStr title) "stickies" then
        "Sticky notepad" else "Notepad"),
    ("4911998000", fun _ => "Paper sticker"),
    ("9608100000", fun _ => "Gel ink pen"),
    ("4820900000", fun _ => "Planner inserts (loose refills)"),
    ("8305903010", fun _ => "Office paper clips"),
    ("6307909800", fun _ => "Elastic for notebook"),
    ("7117909000", fun _ => "Charm for notebook ribbon"),
    ("9608600000", fun _ => "Refills for ballpoint pen"),
    ("4811412100", fun title =>
      if strIncludes (lowerStr title) "pocket" then
        "Paper pocket for notebook" else "Decorative tape for journaling"),
    ("7113115000", fun title =>
      if strIncludes (lowerStr title) "bracelet" then "Sterling silver jewellery bracelets"
      else if strIncludes (lowerStr title) "pendant" then "Sterling silver jewellery pendants"
      else if strIncludes (lowerStr title) "stud" then "Sterling silver jewellery studs"
      else if strIncludes (lowerStr title) "earring" then "Sterling silver jewellery earrings"
      else "Sterling silver jewellery") ]

/-- Object-key lookup in `HS_DESCRIPTION_RULES`. -/
def hsLookup (key : String) : Option (String → String) :=
  (HS_DESCRIPTION_RULES.find? (fun kv => kv.1 == key)).map (·.2)

/-- JS `h.slice(-4)`. -/
def sliceLast4 (h : String) : String :=
  ⟨h.data.drop (h.data.length - 4)⟩

/-- `pickByPrefix` in the source: prefix-based fallback description. -/
def pickByPrefixRule (h title : String) : Option String :=
  let t := lowerStr title
  if strStarts h "48201020" then
    let last4 := sliceLast4 h
    if last4 == "2010" then some "Planner agenda (bound diary)"
    else if last4 == "2060" then some "Notebook (bound journal)"
    else if last4 == "2030" then some "Notebook (sewn journal, B5 size)"
    else if last4 == "2020" then
      some (if strIncludes t "sticky" || strIncludes t "stickies" then
        "Sticky notepad" else "Notepad")
    else some "Notebook (bound journal)"
  else if strStarts h "4911" then some "Paper sticker"
  else if strStarts h "960810" then some "Gel ink pen"
  else if strStarts h "960860" then some "Refills for ballpoint pen"
  else if strStarts h "8305" then some "Office paper clips"
  else if strStarts h "630790" then some "Elastic for notebook"
  else if strStarts h "481141" then
    some (if strIncludes t "pocket" then "Paper pocket for notebook"
      else "Decorative tape for journaling")
  else if strStarts h "711311" then
    some (if strIncludes t "bracelet" then "Sterling silver jewellery bracelets"
      else if strIncludes t "pendant" then "Sterling silver jewellery pendants"
      else if strIncludes t "stud" then "Sterling silver jewellery studs"
      else if strIncludes t "earring" then "Sterling silver jewellery earrings"
      else "Sterling silver jewellery")
  else if strStarts h "7117" then some "Charm for notebook ribbon"
  else none

/-- Result of `pickCustomsDescription`; `overrideHS` is present only when
the title identified the product. -/
structure PickResult where
  desc : String
  overrideHS : Option String := none
  rule : String
deriving DecidableEq

/-- The code-based branch of `pickCustomsDescription` (everything after the
title identification fails to produce a rule). -/
def pickByCode (harmonizedCode title : String) : PickResult :=
  let fixedHS := fixMalformedHS harmonizedCode
  let key := normHS fixedHS
  match hsLookup key with
  | some f => { desc := f title, rule := "exact" }
  | none =>
    match pickByPrefixRule key title with
    | some d => { desc := d, rule := "prefix" }
    | none => { desc := title, rule := "fallback" }

/-- `pickCustomsDescription`: title identification takes priority and always
overrides the incoming code; otherwise fall back to the code tables. -/
def pickCustomsDescription (harmonizedCode titleOrDesc : String) : PickResult :=
  match identifyProductFromTitle titleOrDesc with
  | some productType =>
    match getCorrectHSAndDescription productType with
    | some correct =>
      { desc := correct.desc, overrideHS := some correct.hs,
        rule := "title-" ++ productType }
    | none => pickByCode harmonizedCode titleOrDesc
  | none => pickByCode harmonizedCode titleOrDesc

end CustomsRules

namespace CustomsRules

/-- Whatever `identifyProductFromTitle` returns is a key of the
`getCorrectHSAndDescription` table. -/
theorem getCorrect_of_identify {title pt : String}
    (h : identifyProductFromTitle title = some pt) :
    (getCorrectHSAndDescription pt).isSome = true := by
  unfold identifyProductFromTitle at h
  generalize titleForcesSticker title = b1 at h
  generalize Rx.rtest INSERT_KEYWORDS title = b2 at h
  generalize Rx.rtest STICKY_KEYWORDS title = b3 at h
  generalize Rx.rtest PLANNER_KEYWORDS title = b4 at h
  generalize Rx.rtest mtWashiRx title = b5 at h
  generalize Rx.rtest NOTEBOOK_KEYWORDS title = b6 at h
  generalize Rx.rtest b5Rx title = b7 at h
  generalize Rx.rtest NOTEPAD_KEYWORDS title = b8 at h
  generalize Rx.rtest penRx title = b9 at h
  generalize Rx.rtest elasticRx title = b10 at h
  generalize Rx.rtest charmRx title = b11 at h
  generalize Rx.rtest clipRx title = b12 at h
  generalize Rx.rtest tapeRx title = b13 at h
  generalize Rx.rtest pocketRx title = b14 at h
  generalize Rx.rtest jewelryRx title = b15 at h
  cases b1 with
  | true => simp only [reduceIte] at h; injection h with h; subst h; rfl
  | false =>
    simp only [Bool.false_eq_true, if_false] at h
    cases b2 with
    | true => simp only [reduceIte] at h; injection h with h; subst h; rfl
    | false =>
      simp only [Bool.false_eq_true, if_false] at h
      cases b3 with
      | true => simp only [reduceIte] at h; injection h with h; subst h; rfl
      | false =>
        simp only [Bool.false_eq_true, if_false] at h
        cases b4 with
        | true => simp only [reduceIte] at h; injection h with h; subst h; rfl
        | false =>
          simp only [Bool.false_eq_true, if_false] at h
          cases b5 with
          | true => simp only [reduceIte] at h; injection h with h; subst h; rfl
          | false =>
            simp only [Bool.false_eq_true, if_false] at h
            cases b6 with
            | true =>
              simp only [reduceIte] at h
              cases b7 with
              | true => simp only [reduceIte] at h; injection h with h; subst h; rfl
              | false => simp only [Bool.false_eq_true, if_false] at h; injection h with h; subst h; rfl
            | false =>
              simp only [Bool.false_eq_true, if_false] at h
              cases b8 with
              | true => simp only [reduceIte] at h; injection h with h; subst h; rfl
              | false =>
                simp only [Bool.false_eq_true, if_false] at h
                cases b9 with
                | true => simp only [reduceIte] at h; injection h with h; subst h; rfl
                | false =>
                  simp only [Bool.false_eq_true, if_false] at h
                  cases b10 with
                  | true => simp only [reduceIte] at h; injection h with h; subst h; rfl
                  | false =>
                    simp only [Bool.false_eq_true, if_false] at h
                    cases b11 with
                    | true => simp only [reduceIte] at h; injection h with h; subst h; rfl
                    | false =>
                      simp only [Bool.false_eq_true, if_false] at h
                      cases b12 with
                      | true => simp only [reduceIte] at h; injection h with h; subst h; rfl
                      | false =>
                        simp only [Bool.false_eq_true, if_false] at h
                        cases b13 with
                        | true => simp only [reduceIte] at h; injection h with h; subst h; rfl
                        | false =>
                          simp only [Bool.false_eq_true, if_false] at h
                          cases b14 with
                          | true => simp only [reduceIte] at h; injection h with h; subst h; rfl
                          | false =>
                            simp only [Bool.false_eq_true, if_false] at h
                            cases b15 with
                            | true => simp only [reduceIte] at h; injection h with h; subst h; rfl
                            | false =>
                              simp only [Bool.false_eq_true, if_false] at h
                              exact Option.noConfusion h

/-- Digit-stripping leaves only digits. -/
theorem normHS_all_digits (s : String) :
    (normHS s).data.all JsStr.isDigitC = true := by
  simp [normHS, List.all_eq_true, List.mem_filter]

/-- The code-based branch of the picker never sets `overrideHS`. -/
theorem pickByCode_overrideHS_none (code title : String) :
    (pickByCode code title).overrideHS = none := by
  unfold pickByCode
  cases h1 : hsLookup (normHS (fixMalformedHS code)) with
  | some f => simp only [h1]
  | none =>
    cases h2 : pickByPrefixRule (normHS (fixMalformedHS code)) title with
    | some d => simp only [h1, h2]
    | none => simp only [h1, h2]

/-- Every code in the `getCorrectHSAndDescription` table is a 10-digit
numeric string and a key of `HS_DESCRIPTION_RULES`. -/
theorem getCorrect_hs_props {pt : String} {c : HSDesc}
    (h : getCorrectHSAndDescription pt = some c) :
    c.hs.length = 10 ∧ c.hs.data.all JsStr.isDigitC = true ∧
      (hsLookup c.hs).isSome = true := by
  unfold getCorrectHSAndDescription at h
  split at h
  all_goals first
    | exact Option.noConfusion h
    | (injection h with h; subst h; refine ⟨by decide, by decide, by decide⟩)

end CustomsRules

set_option maxHeartbeats 2000000 in
/-- Claim C3: whenever a product type is identified from the title,
`pickCustomsDescription` returns that product type's fixed description with
`overrideHS` equal to its fixed code, independently of the passed-in code
(which the returned record does not use at all); in particular every stale
code together with the title "2026 Daily Planner — Hardcover" yields
desc "Planner agenda (bound diary)" and overrideHS "4820102010". -/
theorem C3_title_override :
    (∀ code title pt, CustomsRules.identifyProductFromTitle title = some pt →
      ∃ c, CustomsRules.getCorrectHSAndDescription pt = some c ∧
        CustomsRules.pickCustomsDescription code title =
          { desc := c.desc, overrideHS := some c.hs, rule := "title-" ++ pt }) ∧
    (∀ code, CustomsRules.pickCustomsDescription code "2026 Daily Planner — Hardcover" =
      { desc := "Planner agenda (bound diary)", overrideHS := some "4820102010",
        rule := "title-planner" }) := by
  constructor
  · intro code title pt h
    obtain ⟨c, hc⟩ := Option.isSome_iff_exists.mp (CustomsRules.getCorrect_of_identify h)
    refine ⟨c, hc, ?_⟩
    simp only [CustomsRules.pickCustomsDescription, h, hc]
  · intro code
    have h : CustomsRules.identifyProductFromTitle "2026 Daily Planner — Hardcover" =
        some "planner" := by decide
    simp only [CustomsRules.pickCustomsDescription, h]
    rfl

/-- Witness for C3 at the stale code "4820.10.2099" and the planner title. -/
theorem C3_title_override_witness :
    ∃ c, CustomsRules.getCorrectHSAndDescription "planner" = some c ∧
      CustomsRules.pickCustomsDescription "4820.10.2099" "2026 Daily Planner — Hardcover" =
        { desc := c.desc, overrideHS := some c.hs, rule := "title-" ++ "planner" } :=
  C3_title_override.1 "4820.10.2099" "2026 Daily Planner — Hardcover" "planner" (by decide)

/-- Claim C9: `fixMalformedHS` returns only decimal digits, and it deviates
from the digit-stripped input exactly in the three structural-repair cases
(8 digits starting "2048": prepend "4"; 7 digits starting "820": insert "4"
in front and "0" after the third digit; exactly "48201020": append "00"). -/
theorem C9_fixMalformedHS_structural :
    ∀ code : String,
      (CustomsRules.fixMalformedHS code).data.all JsStr.isDigitC = true ∧
      CustomsRules.fixMalformedHS code =
        (if (CustomsRules.normHS code).length = 8 ∧
            CustomsRules.strStarts (CustomsRules.normHS code) "2048" = true then
          "4" ++ CustomsRules.normHS code
        else if (CustomsRules.normHS code).length = 7 ∧
            CustomsRules.strStarts (CustomsRules.normHS code) "820" = true then
          "4" ++ (⟨(CustomsRules.normHS code).data.take 3⟩ : String) ++ "0" ++
            (⟨(CustomsRules.normHS code).data.drop 3⟩ : String)
        else if CustomsRules.normHS code = "48201020" then
          CustomsRules.normHS code ++ "00"
        else
          CustomsRules.normHS code) := by
  intro code
  have hdig : (CustomsRules.normHS code).data.all JsStr.isDigitC = true :=
    CustomsRules.normHS_all_digits code
  have hfix : CustomsRules.fixMalformedHS code =
      (if (CustomsRules.normHS code).length = 8 ∧
          CustomsRules.strStarts (CustomsRules.normHS code) "2048" = true then
        "4" ++ CustomsRules.normHS code
      else if (CustomsRules.normHS code).length = 7 ∧
          CustomsRules.strStarts (CustomsRules.normHS code) "820" = true then
        "4" ++ (⟨(CustomsRules.normHS code).data.take 3⟩ : String) ++ "0" ++
          (⟨(CustomsRules.normHS code).data.drop 3⟩ : String)
      else if CustomsRules.normHS code = "48201020" then
        CustomsRules.normHS code ++ "00"
      else
        CustomsRules.normHS code) := by
    unfold CustomsRules.fixMalformedHS
    simp only [Bool.and_eq_true, beq_iff_eq]
    rfl
  refine ⟨?_, hfix⟩
  rw [hfix]
  split_ifs with h1 h2 h3
  · simp only [String.data_append, List.all_append, hdig, Bool.and_true]
    decide
  · have htake : ((⟨(CustomsRules.normHS code).data.take 3⟩ : String)).data.all
        JsStr.isDigitC = true := by
      rw [List.all_eq_true] at hdig ⊢
      exact fun x hx => hdig x (List.mem_of_mem_take hx)
    have hdrop : ((⟨(CustomsRules.normHS code).data.drop 3⟩ : String)).data.all
        JsStr.isDigitC = true := by
      rw [List.all_eq_true] at hdig ⊢
      exact fun x hx => hdig x (List.mem_of_mem_drop hx)
    simp only [String.data_append, List.all_append, htake, hdrop, Bool.and_true,
      Bool.true_and]
    decide
  · simp only [String.data_append, List.all_append, hdig, Bool.true_and]
    decide
  · exact hdig

/-- Claim C10: any `overrideHS` returned by `pickCustomsDescription` is a
10-digit numeric string that is a key of `HS_DESCRIPTION_RULES`. -/
theorem C10_overrideHS_in_rules :
    ∀ code title h, (CustomsRules.pickCustomsDescription code title).overrideHS = some h →
      h.length = 10 ∧ h.data.all JsStr.isDigitC = true ∧
        (CustomsRules.hsLookup h).isSome = true := by
  intro code title h hov
  unfold CustomsRules.pickCustomsDescription at hov
  cases hid : CustomsRules.identifyProductFromTitle title with
  | none =>
    simp only [hid] at hov
    rw [CustomsRules.pickByCode_overrideHS_none] at hov
    exact Option.noConfusion hov
  | some pt =>
    simp only [hid] at hov
    cases hcor : CustomsRules.getCorrectHSAndDescription pt with
    | none =>
      simp only [hcor] at hov
      rw [CustomsRules.pickByCode_overrideHS_none] at hov
      exact Option.noConfusion hov
    | some c =>
      simp only [hcor] at hov
      injection hov with hov
      subst hov
      exact CustomsRules.getCorrect_hs_props hcor

/-- Witness for C10 at the title "Planner". -/
theorem C10_overrideHS_in_rules_witness :
    ("4820102010" : String).length = 10 ∧
      ("4820102010" : String).data.all JsStr.isDigitC = true ∧
      (CustomsRules.hsLookup "4820102010").isSome = true :=
  C10_overrideHS_in_rules "" "Planner" "4820102010" (by decide)

namespace Fuzzy

open JsStr

/-- The `&` → " and " expansion of `_norm`. -/
def ampExpand (c : Char) : List Char :=
  if c == '&' then " and ".data else [c]

/-- Keep `[a-z0-9\s-]`, replace anything else by a space. -/
def keepNorm (c : Char) : Char :=
  if isLowerAN c || isJsWs c || c == '-' then c else ' '

/-- `_norm`: lower-case, expand ampersands, strip to the kept class,
collapse whitespace, trim. -/
def _norm (s : String) : String :=
  ⟨trimSp (collapseWs (((s.data.map asciiLower).flatMap ampExpand).map keepNorm))⟩

/-- `_normalizeToken`: canonicalize near-identical tokens. -/
def _normalizeToken (tok : String) : String :=
  if tok == "" then ""
  else if tok == "tab" || tok == "tabs" || tok == "sticker" || tok == "stickers" ||
      tok == "tabsticker" || tok == "tabstickers" || tok == "tab-sticker" ||
      tok == "tab-stickers" || tok == "tab sticker" || tok == "tab stickers" then "sticker"
  else if tok == "wildflower" || tok == "wildflowers" then "wildflower"
  else if tok == "botanical" || tok == "botanicals" then "botanical"
  else tok

/-- `_tokens`: normalized token list (`split(' ')`, normalize, drop empties). -/
def _tokens (name : String) : List String :=
  (((splitSp (_norm name).data).map (fun w => _normalizeToken ⟨w⟩)).filter (fun t => t ≠ ""))

/-- The fixed distinctive-terms list of `_scoreNameMatch`. -/
def distinctiveTerms : List String :=
  ["woodlands", "enchanted", "forest", "botanical", "sticker", "monthly", "tabs"]

/-- Result record of `_scoreNameMatch`. -/
structure ScoreResult where
  score : ℚ
  coverage : ℚ
  jaccard : ℚ
deriving DecidableEq

/-- `_scoreNameMatch`: weighted token-overlap similarity. -/
def _scoreNameMatch (queryName candidateName : String) : ScoreResult :=
  let tq := (_tokens queryName).dedup
  let tc := (_tokens candidateName).dedup
  let inter := tq.filter (fun x => tc.contains x)
  let union := (tq ++ tc).dedup
  let coverage : ℚ := (inter.length : ℚ) / max 1 (tq.length : ℚ)
  let jaccard : ℚ := (inter.length : ℚ) / max 1 (union.length : ℚ)
  let bonus : ℚ :=
    distinctiveTerms.foldl
      (fun b w => if tq.contains w && tc.contains w then b + 1/20 else b) 0
  { score := min 1 ((7/10) * coverage + (1/4) * jaccard + bonus),
    coverage := coverage, jaccard := jaccard }

end Fuzzy

namespace Fuzzy

theorem foldl_bonus (l : List String) (p : String → Bool) (init : ℚ) :
    l.foldl (fun b w => if p w then b + 1/20 else b) init =
      init + (1/20) * ((l.filter p).length : ℚ) := by
  induction l generalizing init with
  | nil => simp
  | cons hd tl ih =>
    simp only [List.foldl_cons, List.filter_cons]
    by_cases h : p hd
    · simp only [h, if_true, ih, List.length_cons]
      push_cast
      ring
    · simp only [h, if_false, ih, Bool.false_eq_true]

end Fuzzy

set_option maxHeartbeats 4000000 in
/-- Claim C6: `_scoreNameMatch` equals the weighted formula
min(1, 0.7·coverage + 0.25·jaccard + 0.05·k) over the normalized token sets
(coverage and jaccard with max-1 guarded denominators, k the number of shared
distinctive terms), always lies in [0,1], and is 0 when either side
normalizes to no tokens. -/
theorem C6_scoreNameMatch_formula :
    ∀ a b : String,
      (Fuzzy._scoreNameMatch a b).score =
        min 1 ((7/10) * ((((Fuzzy._tokens a).toFinset ∩ (Fuzzy._tokens b).toFinset).card : ℚ) /
            max 1 ((Fuzzy._tokens a).toFinset.card : ℚ)) +
          (1/4) * ((((Fuzzy._tokens a).toFinset ∩ (Fuzzy._tokens b).toFinset).card : ℚ) /
            max 1 (((Fuzzy._tokens a).toFinset ∪ (Fuzzy._tokens b).toFinset).card : ℚ)) +
          (1/20) * ((Fuzzy.distinctiveTerms.filter
            (fun w => w ∈ (Fuzzy._tokens a).toFinset ∩ (Fuzzy._tokens b).toFinset)).length : ℚ)) ∧
      0 ≤ (Fuzzy._scoreNameMatch a b).score ∧ (Fuzzy._scoreNameMatch a b).score ≤ 1 ∧
      ((Fuzzy._tokens a = [] ∨ Fuzzy._tokens b = []) → (Fuzzy._scoreNameMatch a b).score = 0) := by
  intro a b
  have hinter : ((Fuzzy._tokens a).dedup.filter
      (fun x => (Fuzzy._tokens b).dedup.contains x)).length =
      ((Fuzzy._tokens a).toFinset ∩ (Fuzzy._tokens b).toFinset).card := by
    rw [← List.toFinset_card_of_nodup ((Fuzzy._tokens a).nodup_dedup.filter _)]
    rw [List.toFinset_filter]
    congr 1
    rw [← Finset.filter_mem_eq_inter]
    rw [List.toFinset.ext (fun x => List.mem_dedup)]
    apply Finset.filter_congr
    intro x _
    simp [List.mem_dedup]
  have hunion : (((Fuzzy._tokens a).dedup ++ (Fuzzy._tokens b).dedup).dedup).length =
      ((Fuzzy._tokens a).toFinset ∪ (Fuzzy._tokens b).toFinset).card := by
    rw [← List.card_toFinset, List.toFinset_append,
      List.toFinset.ext (fun x => List.mem_dedup), List.toFinset.ext (fun x => List.mem_dedup)]
  have hq : ((Fuzzy._tokens a).dedup).length = ((Fuzzy._tokens a).toFinset).card := by
    rw [List.card_toFinset]
  have hbonus : (Fuzzy.distinctiveTerms.filter
        (fun w => (Fuzzy._tokens a).dedup.contains w && (Fuzzy._tokens b).dedup.contains w)) =
      (Fuzzy.distinctiveTerms.filter
        (fun w => w ∈ (Fuzzy._tokens a).toFinset ∩ (Fuzzy._tokens b).toFinset)) := by
    apply List.filter_congr
    intro x _
    simp [List.mem_dedup, List.mem_toFinset]
  have hb := Fuzzy.foldl_bonus Fuzzy.distinctiveTerms
    (fun w => (Fuzzy._tokens a).dedup.contains w && (Fuzzy._tokens b).dedup.contains w) 0
  refine ⟨?_, ?_, ?_, ?_⟩
  · simp only [Fuzzy._scoreNameMatch]
    rw [hb, hinter, hunion, hq, hbonus, zero_add]
  · simp only [Fuzzy._scoreNameMatch]
    refine le_min (by norm_num) ?_
    rw [hb, zero_add]
    have hnn : ∀ (n : ℕ) (q : ℚ), 0 ≤ (n : ℚ) / (1 ⊔ q) := fun n q =>
      div_nonneg (Nat.cast_nonneg n) (le_trans zero_le_one le_sup_left)
    refine add_nonneg (add_nonneg ?_ ?_) ?_
    · exact mul_nonneg (by norm_num) (hnn _ _)
    · exact mul_nonneg (by norm_num) (hnn _ _)
    · exact mul_nonneg (by norm_num) (Nat.cast_nonneg _)
  · simp only [Fuzzy._scoreNameMatch]
    exact min_le_left _ _
  · intro h
    rcases h with h | h
    · simp only [Fuzzy._scoreNameMatch, h, List.dedup_nil]
      rw [List.foldl_fixed' (by intro x; simp)]
      norm_num
    · simp only [Fuzzy._scoreNameMatch, h, List.dedup_nil]
      rw [Fuzzy.foldl_bonus]
      simp [List.filter_eq_nil_iff]

set_option maxHeartbeats 4000000 in
/-- Witness for C6 at an empty-tokenizing first argument. -/
theorem C6_scoreNameMatch_formula_witness :
    (Fuzzy._scoreNameMatch "" "A5 Dotted Notebook").score = 0 :=
  (C6_scoreNameMatch_formula "" "A5 Dotted Notebook").2.2.2 (Or.inl (by decide))

namespace Products

open JsStr

/-- JS `String.prototype.trim` (`\s` at both ends). -/
def jsTrim (s : String) : String :=
  ⟨((s.data.dropWhile isJsWs).reverse.dropWhile isJsWs).reverse⟩

/-- JS truthiness of a possibly-missing string: present and non-empty. -/
def truthyS : Option String → Bool
  | some s => s ≠ ""
  | none => false

/-- One order item as read by `syncCustomsSkus` (identifiers already
stringified; absent/null fields are `none`). -/
structure OrderItem where
  sku : Option String := none
  name : Option String := none
  productId : Option String := none
  orderItemId : Option String := none
  itemId : Option String := none
deriving DecidableEq

/-- One customs line as read by `syncCustomsSkus`. -/
structure CustomsSrc where
  sku : Option String := none
  description : Option String := none
  orderItemId : Option String := none
  productId : Option String := none
deriving DecidableEq

/-- The per-item record `inorm` built at the top of `syncCustomsSkus`. -/
structure INorm where
  idx : ℕ
  sku : String
  name : String
  normName : String
  productId : Option String
  orderItemId : Option String
deriving DecidableEq

/-- Build `inorm` from the order items. -/
def mkInorm (items : List OrderItem) : List INorm :=
  items.enum.map (fun p =>
    { idx := p.1,
      sku := jsTrim (p.2.sku.getD ""),
      name := p.2.name.getD "",
      normName := Fuzzy._norm (p.2.name.getD ""),
      productId := p.2.productId,
      orderItemId := match p.2.orderItemId with
        | some v => some v
        | none => p.2.itemId })

/-- Lookup in a JS `Map` built from an entry list (later entries win). -/
def mapLast (entries : List (String × INorm)) (k : String) : Option INorm :=
  (entries.reverse.find? (fun e => e.1 == k)).map (·.2)

/-- The `byProductId` map. -/
def byProductId (inorm : List INorm) (k : String) : Option INorm :=
  mapLast ((inorm.filter (fun x => truthyS x.productId)).map
    (fun x => (x.productId.getD "", x))) k

/-- The `byOrderItemId` map. -/
def byOrderItemId (inorm : List INorm) (k : String) : Option INorm :=
  mapLast ((inorm.filter (fun x => truthyS x.orderItemId)).map
    (fun x => (x.orderItemId.getD "", x))) k

/-- JS `Number(x.toFixed(2))` for the non-negative scores that occur here. -/
def round2 (q : ℚ) : ℚ :=
  (⌊q * 100 + 1/2⌋ : ℚ) / 100

/-- The loop body of the fuzzy tier: keep the incumbent unless the new
candidate scores strictly higher. -/
def fuzzyStep (q : String) (best : Option (INorm × ℚ)) (cand : INorm) :
    Option (INorm × ℚ) :=
  let s := (Fuzzy._scoreNameMatch q cand.name).score
  match best with
  | none => some (cand, s)
  | some b => if s > b.2 then some (cand, s) else some b

/-- The fuzzy-tier fold: best-scoring item over all of `inorm`, earliest
item winning ties (strict `>` updates only). -/
def fuzzyBest (q : String) (inorm : List INorm) : Option (INorm × ℚ) :=
  inorm.foldl (fuzzyStep q) none

/-- A candidate pairing produced by one of the matcher tiers. -/
structure Chosen where
  cand : INorm
  src : String
  matchedName : Option String := none
  confidence : Option ℚ := none
deriving DecidableEq

/-- One row of the returned `customsSkuPlan`. -/
structure PlanEntry where
  index : ℕ
  description : String
  before : String
  after : String
  status : String
  source : String
  matchedName : Option String
  confidence : Option ℚ
  itemIndex : Option ℕ
deriving DecidableEq

/-- Tier 1 of the matcher: by `orderItemId`. -/
def tierOrderItemId (inorm : List INorm) (before : String) (ci : CustomsSrc) :
    Option Chosen :=
  if before == "" then
    match ci.orderItemId with
    | some oid =>
      if oid == "" then none
      else (byOrderItemId inorm oid).map (fun x => { cand := x, src := "orderItemId" })
    | none => none
  else none

/-- Tier 2 of the matcher: by `productId`. -/
def tierProductId (inorm : List INorm) (before : String) (ci : CustomsSrc) :
    Option Chosen :=
  if before == "" then
    match ci.productId with
    | some pid =>
      if pid == "" then none
      else (byProductId inorm pid).map (fun x => { cand := x, src := "productId" })
    | none => none
  else none

/-- Tier 3 of the matcher: exact normalized-name equality among items not
yet consumed. -/
def tierExact (inorm : List INorm) (usedIdx : List ℕ) (before : String)
    (ci : CustomsSrc) : Option Chosen :=
  if before == "" then
    (inorm.find? (fun x => x.normName == Fuzzy._norm (ci.description.getD "") &&
      !(usedIdx.contains x.idx))).map (fun x => { cand := x, src := "name-exact" })
  else none

/-- Tier 4 of the matcher: fuzzy — the best score is taken over ALL items
(`fuzzyBest`), and only afterwards is the winner checked against the
consumed set and the 0.45 threshold. -/
def tierFuzzy (inorm : List INorm) (usedIdx : List ℕ) (before : String)
    (ci : CustomsSrc) : Option Chosen :=
  if before == "" then
    match fuzzyBest (ci.description.getD "") inorm with
    | some (cand, s) =>
      if !(usedIdx.contains cand.idx) && decide ((45/100 : ℚ) ≤ s) then
        some { cand := cand, src := "name-fuzzy",
               matchedName := (if cand.name == "" then none else some cand.name),
               confidence := some (round2 s) }
      else none
    | none => none
  else none

/-- Tier 5 of the matcher: positional fallback when counts line up. -/
def tierPosition (inorm : List INorm) (customsLen : ℕ) (usedIdx : List ℕ)
    (cidx : ℕ) (before : String) : Option Chosen :=
  if before == "" && inorm.length == customsLen && decide (cidx < inorm.length) &&
      !(usedIdx.contains cidx) then
    match inorm.get? cidx with
    | some x => some { cand := x, src := "position" }
    | none => none
  else none

/-- The cascade of the five tiers (each guarded by the previous ones having
produced nothing). -/
def syncChosen (inorm : List INorm) (customsLen : ℕ) (usedIdx : List ℕ)
    (cidx : ℕ) (ci : CustomsSrc) (before : String) : Option Chosen :=
  match tierOrderItemId inorm before ci with
  | some c => some c
  | none =>
    match tierProductId inorm before ci with
    | some c => some c
    | none =>
      match tierExact inorm usedIdx before ci with
      | some c => some c
      | none =>
        match tierFuzzy inorm usedIdx before ci with
        | some c => some c
        | none => tierPosition inorm customsLen usedIdx cidx before

/-- The body of the `customs.map` callback in `syncCustomsSkus`: process one
customs line against the (mutable in JS, threaded here) consumed-item set. -/
def syncStep (inorm : List INorm) (customsLen : ℕ) (usedIdx : List ℕ) (cidx : ℕ)
    (ci : CustomsSrc) : CustomsSrc × PlanEntry × List ℕ :=
  let before := jsTrim (ci.sku.getD "")
  let chosen : Option Chosen := syncChosen inorm customsLen usedIdx cidx ci before
  let after :=
    match chosen with
    | some c => if before == "" && c.cand.sku ≠ "" then c.cand.sku else before
    | none => before
  let matchedName : Option String :=
    match chosen with
    | some c =>
      if before == "" && c.cand.sku ≠ "" then
        (match c.matchedName with
         | some m => some m
         | none => if c.cand.name == "" then none else some c.cand.name)
      else c.matchedName
    | none => none
  let confidence : Option ℚ := chosen.bind (·.confidence)
  let source : String :=
    match chosen with
    | some c => c.src
    | none => if before == "" then "missing" else "kept"
  let status : String :=
    if after ≠ "" then
      (if before ≠ "" then (if before == after then "kept" else "changed") else "filled")
    else "missing"
  let out : CustomsSrc :=
    { ci with
      sku := if after == "" then ci.sku else some after,
      productId :=
        match chosen with
        | some c =>
          if !(truthyS ci.productId) && truthyS c.cand.productId then c.cand.productId
          else ci.productId
        | none => ci.productId,
      orderItemId :=
        match chosen with
        | some c =>
          if !(truthyS ci.orderItemId) && truthyS c.cand.orderItemId then c.cand.orderItemId
          else ci.orderItemId
        | none => ci.orderItemId }
  let used' :=
    match chosen with
    | some c => usedIdx.insert c.cand.idx
    | none => usedIdx
  let entry : PlanEntry :=
    { index := cidx,
      description := ci.description.getD "",
      before := before,
      after := after,
      status := status,
      source := source,
      matchedName := matchedName,
      confidence := confidence,
      itemIndex := chosen.map (·.cand.idx) }
  (out, entry, used')

/-- Thread `syncStep` over the enumerated customs lines, carrying the
consumed-item set. -/
def syncRun (inorm : List INorm) (customsLen : ℕ) :
    List (ℕ × CustomsSrc) → List ℕ → List CustomsSrc × List PlanEntry × List ℕ
  | [], used => ([], [], used)
  | (cidx, ci) :: rest, used =>
    let r := syncStep inorm customsLen used cidx ci
    let rec' := syncRun inorm customsLen rest r.2.2
    (r.1 :: rec'.1, r.2.1 :: rec'.2.1, rec'.2.2)

/-- The order fields `syncCustomsSkus` reads. -/
structure Order where
  items : List OrderItem
  customsItems : List CustomsSrc
deriving DecidableEq

/-- Result of `syncCustomsSkus`: the patched customs lines and the plan. -/
structure SyncResult where
  patched : List CustomsSrc
  plan : List PlanEntry
deriving DecidableEq

/-- `syncCustomsSkus`. -/
def syncCustomsSkus (order : Order) : SyncResult :=
  let customs := order.customsItems
  let items := order.items
  if customs.isEmpty then { patched := customs, plan := [] }
  else
    let inorm := mkInorm items
    let r := syncRun inorm customs.length customs.enum []
    { patched := r.1, plan := r.2.1 }

end Products

namespace Updater

open JsStr Rx

/-- `normalize` of `OrderCustomsUpdater`: lower-case, strip `[^a-z0-9\s]` to
spaces, collapse whitespace, trim. -/
def normalize (s : String) : String :=
  ⟨trimSp (collapseWs ((s.data.map asciiLower).map
    (fun c => if isLowerAN c || isJsWs c then c else ' ')))⟩

/-- The stop-word set of `tokens`. -/
def stopWords : List String :=
  ["and", "or", "the", "of", "for", "with", "a", "an", "to", "&"]

/-- `tokens`: normalized words minus stop words. -/
def tokens (s : String) : List String :=
  (((splitSp (normalize s).data).map (fun w => (⟨w⟩ : String))).filter
    (fun t => t ≠ "")).filter (fun t => !(stopWords.contains t))

/-- `overlapScore`: Jaccard overlap of the two token sets. -/
def overlapScore (a b : String) : ℚ :=
  let A := (tokens a).dedup
  let B := (tokens b).dedup
  if A.length = 0 ∨ B.length = 0 then 0
  else
    let inter := (A.filter (fun t => B.contains t)).length
    (inter : ℚ) / ((A.length : ℚ) + (B.length : ℚ) - (inter : ℚ))

/-- A `NAME_PATTERNS` regex together with the character length of its JS
source text (used by `scorePatternMatch` for the length boost). -/
structure NamedPat where
  pat : RPat
  srcLen : ℕ

/-- `scorePatternMatch`: 0 on no match, otherwise base 10 plus a boost from
the pattern's source length. -/
def scorePatternMatch (name : String) (p : NamedPat) : ℚ :=
  if rtest p.pat name then 10 + min ((p.srcLen : ℚ) / 10) 10 else 0

/-- One entry of the `CATEGORY_TO_CUSTOMS` dictionary. -/
structure CustomsDictEntry where
  hsCode : String
  description : String
  country : String
deriving DecidableEq

/-- `CATEGORY_TO_CUSTOMS`. -/
def CATEGORY_TO_CUSTOMS : List (String × CustomsDictEntry) :=
  [ ("planners", ⟨"4820.10.2010", "Planner agenda (bound diary)", "CA"⟩),
    ("a5_notebooks", ⟨"4820.10.2060", "Notebook (bound journal)", "CA"⟩),
    ("b5_notebooks", ⟨"4820.10.2030", "Notebook (sewn journal, B5 size)", "CA"⟩),
    ("tn_notebooks", ⟨"4820.10.2060", "Notebook (bound journal)", "CA"⟩),
    ("planner_inserts", ⟨"4820.90.0000", "Planner inserts (loose refills)", "CA"⟩),
    ("stickers", ⟨"4911.99.8000", "Paper sticker", "CA"⟩),
    ("washi_tape", ⟨"4811.41.2100", "Decorative paper tape for journaling", "JP"⟩),
    ("planner_charms", ⟨"7117.90.9000", "Imitation jewelry charm", "CN"⟩),
    ("planner_elastic", ⟨"6307.90.9800", "Elastic for notebook", "CN"⟩),
    ("notepad", ⟨"4820.10.2020", "Notepad", "CA"⟩),
    ("sticky_notepad", ⟨"4820.10.2020", "Sticky notepad", "USA"⟩) ]

/-- `CATEGORY_SYNONYMS`. -/
def CATEGORY_SYNONYMS : List (String × String) :=
  [ ("2025 planners", "planners"),
    ("2026 planners hardcover", "planners"),
    ("2026 planners cloth flex", "planners"),
    ("2026 planners paper flex", "planners"),
    ("undated planner", "planners"),
    ("undated planners", "planners"),
    ("a5 notebooks", "a5_notebooks"),
    ("b5 notebooks", "b5_notebooks"),
    ("tn notebooks", "tn_notebooks"),
    ("planner inserts", "planner_inserts"),
    ("stickers", "stickers"),
    ("accessories washi tape", "washi_tape"),
    ("planner charms", "planner_charms"),
    ("planner elastic", "planner_elastic"),
    ("notepads", "notepad"),
    ("sticky notes", "sticky_notepad") ]

/-- `\s+` as pattern elements. -/
def wsP : List RElem :=
  [RElem.cls isJsWs, RElem.star isJsWs]

/-- `\s*`. -/
def wsS : RElem :=
  RElem.star isJsWs

/-- `s?`. -/
def qS : RElem :=
  RElem.qmark (· == 's')

/-- `.*` (dot excludes line terminators). -/
def dotS : RElem :=
  RElem.star dotC

/-- `\b(notebook|journal)\b` expanded. -/
def nbJr (pre : List RElem) : List (List RElem) :=
  [pre ++ [RElem.bound] ++ litE "notebook" ++ [RElem.bound],
   pre ++ [RElem.bound] ++ litE "journal" ++ [RElem.bound]]

/-- `NAME_PATTERNS`, alternations expanded, with JS source lengths. -/
def NAME_PATTERNS : List (String × List NamedPat) :=
  [ ("planners",
      [ ⟨⟨[[RElem.bound] ++ litE "20" ++ [RElem.cls (· == '2'),
            RElem.cls (fun c => c == '5' || c == '6'), RElem.bound, dotS, RElem.bound] ++
            litE "planner" ++ [qS, RElem.bound]]⟩, 30⟩,
        ⟨⟨[[RElem.bound] ++ litE "undated" ++ [RElem.bound, dotS, RElem.bound] ++
            litE "planner" ++ [qS, RElem.bound]]⟩, 28⟩,
        ⟨⟨[ [RElem.bound] ++ litE "daily" ++ [RElem.bound, dotS, RElem.bound] ++
              litE "planner" ++ [qS, RElem.bound],
            [RElem.bound] ++ litE "weekly" ++ [RElem.bound, dotS, RElem.bound] ++
              litE "planner" ++ [qS, RElem.bound],
            [RElem.bound] ++ litE "monthly" ++ [RElem.bound, dotS, RElem.bound] ++
              litE "planner" ++ [qS, RElem.bound]]⟩, 43⟩,
        ⟨⟨[[RElem.bound] ++ litE "planner" ++ [qS, RElem.bound]]⟩, 15⟩ ]),
    ("a5_notebooks",
      [ ⟨⟨nbJr ([RElem.bound] ++ litE "a5" ++ [RElem.bound, dotS])⟩, 30⟩,
        ⟨⟨[ [RElem.bound] ++ litE "notebook" ++ [RElem.bound, dotS, RElem.bound] ++
              litE "a5" ++ [RElem.bound],
            [RElem.bound] ++ litE "journal" ++ [RElem.bound, dotS, RElem.bound] ++
              litE "a5" ++ [RElem.bound]]⟩, 30⟩ ]),
    ("b5_notebooks",
      [ ⟨⟨nbJr ([RElem.bound] ++ litE "b5" ++ [RElem.bound, dotS])⟩, 30⟩,
        ⟨⟨[ [RElem.bound] ++ litE "notebook" ++ [RElem.bound, dotS, RElem.bound] ++
              litE "b5" ++ [RElem.bound],
            [RElem.bound] ++ litE "journal" ++ [RElem.bound, dotS, RElem.bound] ++
              litE "b5" ++ [RElem.bound]]⟩, 30⟩ ]),
    ("tn_notebooks",
      [ ⟨⟨nbJr ([RElem.bound] ++ litE "tn" ++ [RElem.bound, dotS])⟩, 30⟩,
        ⟨⟨nbJr ([RElem.bound] ++ litE "travel" ++ [RElem.qmark (· == 'l')] ++
            litE "er" ++ [RElem.qmark (· == Char.ofNat 39), qS, RElem.bound, dotS])⟩, 42⟩ ]),
    ("planner_inserts",
      [ ⟨⟨[ [RElem.bound] ++ litE "insert" ++ [RElem.bound],
            [RElem.bound] ++ litE "inserts" ++ [RElem.bound],
            [RElem.bound] ++ litE "refill" ++ [RElem.bound],
            [RElem.bound] ++ litE "refills" ++ [RElem.bound],
            [RElem.bound] ++ litE "loose" ++ [RElem.bound],
            [RElem.bound] ++ litE "looseleaf" ++ [RElem.bound]]⟩, 51⟩,
        ⟨⟨[ [RElem.bound] ++ litE "disc" ++ [wsS] ++ litE "bound" ++ [RElem.bound],
            [RElem.bound] ++ litE "discbound" ++ [RElem.bound]]⟩, 30⟩ ]),
    ("stickers",
      [ ⟨⟨[[RElem.bound] ++ litE "sticker" ++ [qS, RElem.bound]]⟩, 22⟩,
        ⟨⟨[[RElem.bound] ++ litE "tab" ++ [qS, RElem.bound]]⟩, 14⟩,
        ⟨⟨[[RElem.bound] ++ litE "monthly" ++ wsP ++ litE "tabs" ++ [RElem.bound]]⟩, 18⟩,
        ⟨⟨[[RElem.bound] ++ litE "highlight" ++ [qS, RElem.bound]]⟩, 17⟩ ]),
    ("washi_tape",
      [ ⟨⟨[[RElem.bound] ++ litE "washi" ++ [RElem.bound]]⟩, 9⟩,
        ⟨⟨[[RElem.bound] ++ litE "mt" ++ [RElem.bound]]⟩, 6⟩ ]),
    ("planner_charms",
      [ ⟨⟨[[RElem.bound] ++ litE "charm" ++ [qS, RElem.bound]]⟩, 13⟩ ]),
    ("planner_elastic",
      [ ⟨⟨[[RElem.bound] ++ litE "elastic" ++ [RElem.bound]]⟩, 11⟩,
        ⟨⟨[[RElem.bound] ++ litE "clip" ++ [wsS] ++ litE "band" ++ [RElem.bound]]⟩, 15⟩ ]),
    ("notepad",
      [ ⟨⟨[[RElem.bound] ++ litE "notepad" ++ [RElem.bound]]⟩, 11⟩,
        ⟨⟨[[RElem.bound] ++ litE "memo" ++ [wsS] ++ litE "pad" ++ [RElem.bound]]⟩, 14⟩ ]),
    ("sticky_notepad",
      [ ⟨⟨[[RElem.bound] ++ litE "sticky" ++ [wsS] ++ litE "note" ++ [qS, RElem.bound]]⟩, 21⟩,
        ⟨⟨[[RElem.bound] ++ litE "post" ++ [RElem.qmark (· == '-')] ++ litE "it" ++
            [RElem.bound]]⟩, 12⟩,
        ⟨⟨[[RElem.bound] ++ litE "stickies" ++ [RElem.bound]]⟩, 12⟩ ]) ]

/-- The customs data returned by the dictionary helpers
(`customsFromDict`). -/
structure CustomsMatch where
  harmonizedTariffCode : String
  description : String
  countryOfOrigin : String
deriving DecidableEq

/-- `customsFromDict`. -/
def customsFromDict (entry : CustomsDictEntry) : CustomsMatch :=
  { harmonizedTariffCode := entry.hsCode,
    description := entry.description,
    countryOfOrigin := entry.country }

/-- JS truthiness of an optional string. -/
def truthyS : Option String → Bool
  | some s => s ≠ ""
  | none => false

/-- `normalizeCategory`. -/
def normalizeCategory (cat : String) : String :=
  let n := normalize cat
  match CATEGORY_SYNONYMS.find? (fun kv => kv.1 == n) with
  | some kv => kv.2
  | none => n

/-- `getCustomsByCategory`. -/
def getCustomsByCategory (rawCategory : Option String) : Option CustomsMatch :=
  if !(truthyS rawCategory) then none
  else
    let key := normalizeCategory (rawCategory.getD "")
    (CATEGORY_TO_CUSTOMS.find? (fun kv => kv.1 == key)).map (fun kv => customsFromDict kv.2)

/-- `getCustomsByName`: best-scoring category over `NAME_PATTERNS`. -/
def getCustomsByName (name : Option String) : Option CustomsMatch :=
  if !(truthyS name) then none
  else
    let best := NAME_PATTERNS.foldl (fun best cp =>
      let s := cp.2.foldl (fun acc p => acc + scorePatternMatch (name.getD "") p) 0
      if s > best.2 then (some cp.1, s) else best) ((none : Option String), (0 : ℚ))
    match best.1 with
    | none => none
    | some cat =>
      (CATEGORY_TO_CUSTOMS.find? (fun kv => kv.1 == cat)).map (fun kv => customsFromDict kv.2)

/-- `getCustomsData`. -/
def getCustomsData (name category : Option String) : Option CustomsMatch :=
  match getCustomsByCategory category with
  | some m => some m
  | none => getCustomsByName name

/-- JS truthiness of an optional number. -/
def truthyQ : Option ℚ → Bool
  | some q => q ≠ 0
  | none => false

/-- JS `a || d` for numbers. -/
def jsOrQ (a : Option ℚ) (d : ℚ) : ℚ :=
  match a with
  | some q => if q ≠ 0 then q else d
  | none => d

/-- JS `Number(x || 0)`. -/
def numOr0 (a : Option ℚ) : ℚ :=
  jsOrQ a 0

/-- JS `Number(q.toFixed(2))` (round half away from zero at two
decimals; float artifacts are not modelled). -/
def toFixed2 (q : ℚ) : ℚ :=
  if q < 0 then -(((⌊-q * 100 + 1/2⌋ : ℤ) : ℚ) / 100)
  else ((⌊q * 100 + 1/2⌋ : ℤ) : ℚ) / 100

/-- One order item as read by `mergeCustomsItems`. -/
structure UItem where
  name : Option String := none
  category : Option String := none
  sku : Option String := none
  quantity : Option ℚ := none
  unitPrice : Option ℚ := none
deriving DecidableEq

/-- One customs line as read and written by `mergeCustomsItems`. -/
structure ULine where
  customsItemId : Option String := none
  description : Option String := none
  quantity : Option ℚ := none
  value : Option ℚ := none
  harmonizedTariffCode : Option String := none
  countryOfOrigin : Option String := none
deriving DecidableEq

/-- The order fields `mergeCustomsItems` reads
(`internationalOptions?.customsItems` is `none` when absent or not an
array). -/
structure UOrder where
  items : List UItem
  customsItems : Option (List ULine) := none
deriving DecidableEq

/-- `formatDesc` with the repository's `APPEND_SKU_TO_DESC = true`. -/
def formatDesc (base : String) (sku : Option String) : String :=
  if !(truthyS sku) then base
  else
    let out := base ++ " — SKU " ++ sku.getD ""
    if decide (100 < out.length) then ⟨out.data.take 100⟩ else out

/-- `findExistingLineIndex`: exact normalized description first, then token
overlap at threshold 0.34, skipping used lines. -/
def findExistingLineIndex (item : UItem) (targetDesc : String)
    (existing : List ULine) (used : List ℕ) : Option ℕ :=
  let exact : Option ℕ :=
    if targetDesc ≠ "" then
      (existing.enum.find? (fun p => !(used.contains p.1) &&
        normalize (p.2.description.getD "") == normalize targetDesc)).map (·.1)
    else none
  match exact with
  | some i => some i
  | none =>
    let best := existing.enum.foldl (fun acc p =>
      if used.contains p.1 then acc
      else
        let s := overlapScore (item.name.getD "") (p.2.description.getD "")
        if s > acc.2 then (some p.1, s) else acc) ((none : Option ℕ), (0 : ℚ))
    if decide ((34/100 : ℚ) ≤ best.2) then best.1 else none

/-- The body of the `for (const item of order.items)` loop of
`mergeCustomsItems`, threading the merged lines and the used-index set. -/
def mergeStep (st : List ULine × List ℕ) (item : UItem) : List ULine × List ℕ :=
  let merged := st.1
  let used := st.2
  match getCustomsData item.name item.category with
  | none => st
  | some mtch =>
    let targetDesc := formatDesc mtch.description item.sku
    let idx := findExistingLineIndex item targetDesc merged used
    let newLine : ULine :=
      { customsItemId :=
          match idx with
          | some i =>
            match merged.get? i with
            | some old => if truthyS old.customsItemId then old.customsItemId else none
            | none => none
          | none => none,
        description := some targetDesc,
        quantity :=
          match idx with
          | some i =>
            match merged.get? i with
            | some old => some (jsOrQ old.quantity (jsOrQ item.quantity 1))
            | none => some (jsOrQ item.quantity 1)
          | none => some (jsOrQ item.quantity 1),
        value := some (toFixed2
          ((jsOrQ item.unitPrice
             (match idx with
              | some i =>
                match merged.get? i with
                | some old => jsOrQ old.value 0
                | none => 0
              | none => 0)) * jsOrQ item.quantity 1)),
        harmonizedTariffCode := some mtch.harmonizedTariffCode,
        countryOfOrigin := some mtch.countryOfOrigin }
    match idx with
    | some i => (merged.set i newLine, used.insert i)
    | none =>
      let dup := merged.find? (fun ci =>
        normalize (ci.description.getD "") == normalize (newLine.description.getD "") &&
        (ci.harmonizedTariffCode.getD "") == (newLine.harmonizedTariffCode.getD "") &&
        (ci.countryOfOrigin.getD "") == (newLine.countryOfOrigin.getD "") &&
        numOr0 ci.value == numOr0 newLine.value &&
        numOr0 ci.quantity == numOr0 newLine.quantity)
      match dup with
      | some _ => (merged, used)
      | none => (merged ++ [newLine], used)

/-- `mergeCustomsItems`: reconcile the order items into the existing customs
lines; the final guard is the fatal "Safety check" branch. -/
def mergeCustomsItems (order : UOrder) : Except String (List ULine) :=
  let existing := order.customsItems.getD []
  let merged := (order.items.foldl mergeStep (existing, [])).1
  if decide (merged.length < existing.length) then
    .error "Safety check: customs lines would decrease. Aborting."
  else
    .ok merged

end Updater

section MatcherProofs

attribute [local semireducible] Rat.mul Rat.add Rat.inv

namespace Products

theorem tierOrderItemId_src {inorm : List INorm} {before : String} {ci : CustomsSrc}
    {c : Chosen} (h : tierOrderItemId inorm before ci = some c) :
    c.src = "orderItemId" := by
  unfold tierOrderItemId at h
  cases hbe : (before == "") with
  | false => simp only [hbe, Bool.false_eq_true, if_false] at h; exact Option.noConfusion h
  | true =>
    simp only [hbe, reduceIte] at h
    cases hoid : ci.orderItemId with
    | none => simp only [hoid] at h; exact Option.noConfusion h
    | some oid =>
      simp only [hoid] at h
      cases hoe : (oid == "") with
      | true => simp only [hoe, reduceIte] at h; exact Option.noConfusion h
      | false =>
        simp only [hoe, Bool.false_eq_true, if_false, Option.map_eq_some'] at h
        obtain ⟨x, _, hx⟩ := h
        subst hx
        rfl

theorem tierProductId_src {inorm : List INorm} {before : String} {ci : CustomsSrc}
    {c : Chosen} (h : tierProductId inorm before ci = some c) :
    c.src = "productId" := by
  unfold tierProductId at h
  cases hbe : (before == "") with
  | false => simp only [hbe, Bool.false_eq_true, if_false] at h; exact Option.noConfusion h
  | true =>
    simp only [hbe, reduceIte] at h
    cases hpid : ci.productId with
    | none => simp only [hpid] at h; exact Option.noConfusion h
    | some pid =>
      simp only [hpid] at h
      cases hpe : (pid == "") with
      | true => simp only [hpe, reduceIte] at h; exact Option.noConfusion h
      | false =>
        simp only [hpe, Bool.false_eq_true, if_false, Option.map_eq_some'] at h
        obtain ⟨x, _, hx⟩ := h
        subst hx
        rfl

theorem tierExact_props {inorm : List INorm} {usedIdx : List ℕ} {before : String}
    {ci : CustomsSrc} {c : Chosen} (h : tierExact inorm usedIdx before ci = some c) :
    c.src = "name-exact" ∧ usedIdx.contains c.cand.idx = false ∧
      c.cand ∈ inorm ∧ c.cand.normName = Fuzzy._norm (ci.description.getD "") := by
  unfold tierExact at h
  cases hbe : (before == "") with
  | false => simp only [hbe, Bool.false_eq_true, if_false] at h; exact Option.noConfusion h
  | true =>
    simp only [hbe, reduceIte, Option.map_eq_some'] at h
    obtain ⟨x, hfind, hx⟩ := h
    have hp := List.find?_some hfind
    have hmem := List.mem_of_find?_eq_some hfind
    simp only [Bool.and_eq_true, Bool.not_eq_true', beq_iff_eq] at hp
    subst hx
    exact ⟨rfl, hp.2, hmem, hp.1⟩

theorem tierFuzzy_props {inorm : List INorm} {usedIdx : List ℕ} {before : String}
    {ci : CustomsSrc} {c : Chosen} (h : tierFuzzy inorm usedIdx before ci = some c) :
    c.src = "name-fuzzy" ∧ usedIdx.contains c.cand.idx = false ∧
      ∃ s, fuzzyBest (ci.description.getD "") inorm = some (c.cand, s) ∧
        (45/100 : ℚ) ≤ s := by
  unfold tierFuzzy at h
  cases hbe : (before == "") with
  | false => simp only [hbe, Bool.false_eq_true, if_false] at h; exact Option.noConfusion h
  | true =>
    simp only [hbe, reduceIte] at h
    cases hfb : fuzzyBest (ci.description.getD "") inorm with
    | none => simp only [hfb] at h; exact Option.noConfusion h
    | some p =>
      obtain ⟨cand, s⟩ := p
      simp only [hfb] at h
      by_cases hcond : (!(usedIdx.contains cand.idx) && decide ((45/100 : ℚ) ≤ s)) = true
      · rw [if_pos hcond] at h
        injection h with h
        subst h
        simp only [Bool.and_eq_true, Bool.not_eq_true', decide_eq_true_eq] at hcond
        exact ⟨rfl, hcond.1, s, rfl, hcond.2⟩
      · rw [if_neg hcond] at h
        exact Option.noConfusion h

theorem tierPosition_props {inorm : List INorm} {customsLen : ℕ} {usedIdx : List ℕ}
    {cidx : ℕ} {before : String} {c : Chosen}
    (h : tierPosition inorm customsLen usedIdx cidx before = some c) :
    c.src = "position" ∧ usedIdx.contains cidx = false ∧
      inorm.get? cidx = some c.cand := by
  unfold tierPosition at h
  by_cases hcond : (before == "" && inorm.length == customsLen &&
      decide (cidx < inorm.length) && !(usedIdx.contains cidx)) = true
  · rw [if_pos hcond] at h
    simp only [Bool.and_eq_true, Bool.not_eq_true'] at hcond
    cases hget : inorm.get? cidx with
    | none => simp only [hget] at h; exact Option.noConfusion h
    | some x =>
      simp only [hget] at h
      injection h with h
      subst h
      exact ⟨rfl, hcond.2, rfl⟩
  · rw [if_neg hcond] at h
    exact Option.noConfusion h

theorem syncChosen_cases {inorm : List INorm} {customsLen : ℕ} {usedIdx : List ℕ}
    {cidx : ℕ} {ci : CustomsSrc} {before : String} {c : Chosen}
    (h : syncChosen inorm customsLen usedIdx cidx ci before = some c) :
    tierOrderItemId inorm before ci = some c ∨
    tierProductId inorm before ci = some c ∨
    tierExact inorm usedIdx before ci = some c ∨
    tierFuzzy inorm usedIdx before ci = some c ∨
    tierPosition inorm customsLen usedIdx cidx before = some c := by
  unfold syncChosen at h
  cases h1 : tierOrderItemId inorm before ci with
  | some c1 =>
    simp only [h1] at h
    exact Or.inl h
  | none =>
    simp only [h1] at h
    cases h2 : tierProductId inorm before ci with
    | some c2 =>
      simp only [h2] at h
      exact Or.inr (Or.inl h)
    | none =>
      simp only [h2] at h
      cases h3 : tierExact inorm usedIdx before ci with
      | some c3 =>
        simp only [h3] at h
        exact Or.inr (Or.inr (Or.inl h))
      | none =>
        simp only [h3] at h
        cases h4 : tierFuzzy inorm usedIdx before ci with
        | some c4 =>
          simp only [h4] at h
          exact Or.inr (Or.inr (Or.inr (Or.inl h)))
        | none =>
          simp only [h4] at h
          exact Or.inr (Or.inr (Or.inr (Or.inr h)))

end Products

namespace Products

theorem syncStep_index (inorm : List INorm) (len : ℕ) (used : List ℕ) (cidx : ℕ)
    (ci : CustomsSrc) : ((syncStep inorm len used cidx ci).2.1).index = cidx := rfl

theorem syncStep_itemIndex_used {inorm : List INorm} {len : ℕ} {used : List ℕ}
    {cidx : ℕ} {ci : CustomsSrc} {j : ℕ}
    (h : ((syncStep inorm len used cidx ci).2.1).itemIndex = some j) :
    j ∈ (syncStep inorm len used cidx ci).2.2 := by
  cases hc : syncChosen inorm len used cidx ci (jsTrim (ci.sku.getD "")) with
  | none => simp [syncStep, hc] at h
  | some c =>
    simp only [syncStep, hc, Option.map_some'] at h ⊢
    injection h with h
    subst h
    exact List.mem_insert_self _ _

theorem syncStep_used_mono {inorm : List INorm} {len : ℕ} {used : List ℕ}
    {cidx : ℕ} {ci : CustomsSrc} {j : ℕ} (h : j ∈ used) :
    j ∈ (syncStep inorm len used cidx ci).2.2 := by
  cases hc : syncChosen inorm len used cidx ci (jsTrim (ci.sku.getD "")) with
  | none => simpa [syncStep, hc] using h
  | some c =>
    simp only [syncStep, hc]
    exact List.mem_insert_of_mem h

theorem syncStep_checked_fresh {inorm : List INorm} {len : ℕ} {used : List ℕ}
    {cidx : ℕ} {ci : CustomsSrc} {j : ℕ}
    (hwf : ∀ i x, inorm.get? i = some x → x.idx = i)
    (hs1 : ((syncStep inorm len used cidx ci).2.1).source ≠ "orderItemId")
    (hs2 : ((syncStep inorm len used cidx ci).2.1).source ≠ "productId")
    (h : ((syncStep inorm len used cidx ci).2.1).itemIndex = some j) :
    j ∉ used := by
  cases hc : syncChosen inorm len used cidx ci (jsTrim (ci.sku.getD "")) with
  | none => simp [syncStep, hc] at h
  | some c =>
    simp only [syncStep, hc, Option.map_some'] at h hs1 hs2
    injection h with h
    subst h
    rcases syncChosen_cases hc with h1 | h1 | h1 | h1 | h1
    · exact absurd (tierOrderItemId_src h1) hs1
    · exact absurd (tierProductId_src h1) hs2
    · have := (tierExact_props h1).2.1
      simpa using this
    · have := (tierFuzzy_props h1).2.1
      simpa using this
    · obtain ⟨_, hcont, hget⟩ := tierPosition_props h1
      have hidx : c.cand.idx = cidx := hwf _ _ hget
      rw [hidx]
      simpa using hcont

end Products

namespace Products

/-- A plan entry produced by one of the tiers that check the consumed set. -/
def checkedSrc (e : PlanEntry) : Prop :=
  e.source ≠ "orderItemId" ∧ e.source ≠ "productId"

theorem syncRun_inv (inorm : List INorm) (len : ℕ)
    (hwf : ∀ i x, inorm.get? i = some x → x.idx = i) :
    ∀ (rest : List (ℕ × CustomsSrc)) (used : List ℕ)
      (outs : List CustomsSrc) (plans : List PlanEntry) (usedF : List ℕ),
      syncRun inorm len rest used = (outs, plans, usedF) →
      plans.length = rest.length ∧
      (∀ k (hk : k < plans.length) (hk' : k < rest.length),
        (plans.get ⟨k, hk⟩).index = (rest.get ⟨k, hk'⟩).1) ∧
      (∀ j, j ∈ used → j ∈ usedF) ∧
      (∀ e, e ∈ plans → ∀ j, e.itemIndex = some j → j ∈ usedF) ∧
      (∀ e, e ∈ plans → ∀ j, checkedSrc e → e.itemIndex = some j → j ∉ used) ∧
      (∀ k l (hk : k < plans.length) (hl : l < plans.length), k < l →
        checkedSrc (plans.get ⟨l, hl⟩) →
        ∀ j, (plans.get ⟨l, hl⟩).itemIndex = some j →
          (plans.get ⟨k, hk⟩).itemIndex ≠ some j) := by
  intro rest
  induction rest with
  | nil =>
    intro used outs plans usedF heq
    simp only [syncRun, Prod.mk.injEq] at heq
    obtain ⟨ho, hp, hu⟩ := heq
    subst ho hp hu
    refine ⟨rfl, ?_, ?_, ?_, ?_, ?_⟩
    · intro k hk
      exact absurd hk (by simp)
    · exact fun j h => h
    · intro e he
      exact absurd he (List.not_mem_nil e)
    · intro e he
      exact absurd he (List.not_mem_nil e)
    · intro k l hk
      exact absurd hk (by simp)
  | cons hd rest' ih =>
    obtain ⟨cidx, ci⟩ := hd
    intro used outs plans usedF heq
    simp only [syncRun, Prod.mk.injEq] at heq
    obtain ⟨ho, hp, hu⟩ := heq
    obtain ⟨ihlen, ihidx, ihmono, ihall, ihfresh, ihpair⟩ :=
      ih ((syncStep inorm len used cidx ci).2.2)
        (syncRun inorm len rest' ((syncStep inorm len used cidx ci).2.2)).1
        (syncRun inorm len rest' ((syncStep inorm len used cidx ci).2.2)).2.1
        (syncRun inorm len rest' ((syncStep inorm len used cidx ci).2.2)).2.2
        rfl
    subst ho hu
    subst hp
    refine ⟨?_, ?_, ?_, ?_, ?_, ?_⟩
    · simp [ihlen]
    · intro k hk hk'
      match k with
      | 0 => exact syncStep_index inorm len used cidx ci
      | Nat.succ k' =>
        exact ihidx k' (by simpa using hk) (by simpa using hk')
    · intro j hj
      exact ihmono j (syncStep_used_mono hj)
    · intro e he j hij
      rcases List.mem_cons.mp he with he | he
      · subst he
        exact ihmono j (syncStep_itemIndex_used hij)
      · exact ihall e he j hij
    · intro e he j hch hij
      rcases List.mem_cons.mp he with he | he
      · subst he
        exact syncStep_checked_fresh hwf hch.1 hch.2 hij
      · intro hmem
        exact ihfresh e he j hch hij (syncStep_used_mono hmem)
    · intro k l hk hl hkl hch j hij
      match l, hl with
      | Nat.succ l', hl =>
        match k, hk with
        | 0, hk =>
          intro h0
          have hmem : ((syncRun inorm len rest'
              ((syncStep inorm len used cidx ci).2.2)).2.1).get
                ⟨l', by simpa using hl⟩ ∈
              (syncRun inorm len rest' ((syncStep inorm len used cidx ci).2.2)).2.1 :=
            List.get_mem _ _ _
          have hfresh := ihfresh _ hmem j (by simpa using hch) (by simpa using hij)
          exact hfresh (syncStep_itemIndex_used h0)
        | Nat.succ k', hk =>
          exact ihpair k' l' (by simpa using hk) (by simpa using hl)
            (by omega) (by simpa using hch) j (by simpa using hij)

end Products

namespace Products

theorem mkInorm_wf (items : List OrderItem) :
    ∀ i x, (mkInorm items).get? i = some x → x.idx = i := by
  intro i x h
  unfold mkInorm at h
  rw [List.get?_eq_getElem?, List.getElem?_map] at h
  cases he : items.enum[i]? with
  | none => rw [he] at h; exact Option.noConfusion h
  | some p =>
    rw [he] at h
    have hlen : i < items.enum.length := by
      by_contra hge
      rw [List.getElem?_eq_none (by omega)] at he
      exact Option.noConfusion he
    have hp : items.enum[i]? = some (items.enum[i]) := List.getElem?_eq_getElem hlen
    rw [hp] at he
    injection he with he
    have hfst : items.enum[i].1 = i := by
      have := List.getElem_enum items (i := i) (by simpa using hlen)
      rw [this]
    injection h with h
    subst h
    simp only [← he, hfst]

end Products

/-- Claim C1 (amended): the pairing produced by `syncCustomsSkus` is always
injective on the declaration side (one plan entry per customs line, carrying
its own index), and two pairs can share an item index only when the later
pair was produced by the `orderItemId` or `productId` tier — those two tiers
do not consult the consumed-item set, so the claimed two-sided injectivity
fails for them (see the counterexample), while every pair produced by the
name-exact, name-fuzzy or position tier has an item index distinct from all
earlier pairs. -/
theorem C1_matcher_exclusivity :
    ∀ (order : Products.Order),
      (Products.syncCustomsSkus order).plan.length = order.customsItems.length ∧
      (∀ k (hk : k < (Products.syncCustomsSkus order).plan.length),
        ((Products.syncCustomsSkus order).plan.get ⟨k, hk⟩).index = k) ∧
      (∀ k l (hk : k < (Products.syncCustomsSkus order).plan.length)
          (hl : l < (Products.syncCustomsSkus order).plan.length), k < l →
        ((Products.syncCustomsSkus order).plan.get ⟨l, hl⟩).source ≠ "orderItemId" →
        ((Products.syncCustomsSkus order).plan.get ⟨l, hl⟩).source ≠ "productId" →
        ∀ j, ((Products.syncCustomsSkus order).plan.get ⟨l, hl⟩).itemIndex = some j →
          ((Products.syncCustomsSkus order).plan.get ⟨k, hk⟩).itemIndex ≠ some j) := by
  intro order
  unfold Products.syncCustomsSkus
  by_cases hemp : order.customsItems.isEmpty
  · simp only [hemp, reduceIte]
    refine ⟨?_, ?_, ?_⟩
    · simp [List.isEmpty_iff.mp hemp]
    · intro k hk
      exact absurd hk (by simp)
    · intro k l hk hl
      exact absurd hk (by simp)
  · rw [if_neg hemp]
    obtain ⟨hlen, hidx, _, _, _, hpair⟩ :=
      Products.syncRun_inv (Products.mkInorm order.items) order.customsItems.length
        (Products.mkInorm_wf order.items) order.customsItems.enum []
        (Products.syncRun (Products.mkInorm order.items) order.customsItems.length
          order.customsItems.enum []).1
        (Products.syncRun (Products.mkInorm order.items) order.customsItems.length
          order.customsItems.enum []).2.1
        (Products.syncRun (Products.mkInorm order.items) order.customsItems.length
          order.customsItems.enum []).2.2
        rfl
    refine ⟨by simpa using hlen, ?_, ?_⟩
    · intro k hk
      have hk2 : k < (Products.syncRun (Products.mkInorm order.items)
          order.customsItems.length order.customsItems.enum []).2.1.length := hk
      have hk' : k < order.customsItems.enum.length := by rw [← hlen]; exact hk2
      have heq := hidx k hk2 hk'
      have henum : (order.customsItems.enum.get ⟨k, hk'⟩).1 = k := by
        rw [List.get_eq_getElem, List.getElem_enum]
      exact heq.trans henum
    · intro k l hk hl hkl hs1 hs2 j hij
      exact hpair k l hk hl hkl ⟨hs1, hs2⟩ j hij

/-- Claim C1 counterexample: two customs lines carrying the same
`orderItemId` are both paired with item 0 — the pairing is not injective on
the item side, contradicting the claim as stated. -/
theorem C1_matcher_exclusivity_cx :
    ((Products.syncCustomsSkus
      { items := [{ sku := some "S1", name := some "widget A", orderItemId := some "7" }],
        customsItems := [{ description := some "widget A", orderItemId := some "7" },
                         { description := some "widget B", orderItemId := some "7" }] }).plan.map
      (fun e => (e.itemIndex, e.source))) =
      [(some 0, "orderItemId"), (some 0, "orderItemId")] := by
  decide

/-- Witness for C1 at a concrete two-line order matched by exact names. -/
theorem C1_matcher_exclusivity_witness :
    ((Products.syncCustomsSkus
      { items := [{ sku := some "A", name := some "one" },
                  { sku := some "B", name := some "two" }],
        customsItems := [{ description := some "one" },
                         { description := some "two" }] }).plan.get
      ⟨0, by decide⟩).itemIndex ≠ some 1 :=
  (C1_matcher_exclusivity _).2.2 0 1 (by decide) (by decide) (by decide) (by decide) (by decide) 1 (by decide)

namespace Products

theorem foldl_fuzzyStep_isSome (q : String) :
    ∀ (l : List INorm) (b : INorm × ℚ),
      (List.foldl (fuzzyStep q) (some b) l).isSome = true := by
  intro l
  induction l with
  | nil => intro b; rfl
  | cons hd tl ih =>
    intro b
    rw [List.foldl_cons]
    unfold fuzzyStep
    by_cases hgt : (Fuzzy._scoreNameMatch q hd.name).score > b.2
    · simp only [hgt, if_true]
      exact ih _
    · simp only [hgt, if_false]
      exact ih _

theorem fuzzyBest_none {q : String} {l : List INorm}
    (h : fuzzyBest q l = none) : l = [] := by
  cases l with
  | nil => rfl
  | cons hd tl =>
    exfalso
    unfold fuzzyBest at h
    rw [List.foldl_cons] at h
    have : (List.foldl (fuzzyStep q) (fuzzyStep q none hd) tl).isSome = true := by
      show (List.foldl (fuzzyStep q) (some (hd, (Fuzzy._scoreNameMatch q hd.name).score)) tl).isSome = true
      exact foldl_fuzzyStep_isSome q tl _
    rw [h] at this
    exact Bool.noConfusion this

theorem fuzzyBest_spec {q : String} {inorm : List INorm} {cand : INorm} {s : ℚ}
    (h : fuzzyBest q inorm = some (cand, s)) :
    s = (Fuzzy._scoreNameMatch q cand.name).score ∧
    (∀ x ∈ inorm, (Fuzzy._scoreNameMatch q x.name).score ≤ s) ∧
    ∃ i, inorm.get? i = some cand ∧
      (∀ k x, k < i → inorm.get? k = some x →
        (Fuzzy._scoreNameMatch q x.name).score < s) := by
  induction inorm using List.reverseRecOn generalizing cand s with
  | nil => exact Option.noConfusion h
  | append_singleton l a ihl =>
    unfold fuzzyBest at h
    rw [List.foldl_append, List.foldl_cons, List.foldl_nil] at h
    cases hprev : List.foldl (fuzzyStep q) none l with
    | none =>
      have hl : l = [] := fuzzyBest_none hprev
      subst hl
      rw [List.foldl_nil] at h
      unfold fuzzyStep at h
      injection h with h
      injection h with h1 h2
      subst h1
      subst h2
      refine ⟨rfl, ?_, 0, rfl, ?_⟩
      · intro x hx
        rcases List.mem_singleton.mp hx with rfl
        exact le_refl _
      · intro k x hk
        exact absurd hk (by omega)
    | some p =>
      obtain ⟨c', s'⟩ := p
      rw [hprev] at h
      obtain ⟨ihs, ihbound, i, ihget, ihstrict⟩ := ihl hprev
      have hilt : i < l.length := by
        rcases List.get?_eq_some.mp ihget with ⟨hlt, _⟩
        exact hlt
      unfold fuzzyStep at h
      by_cases hgt : (Fuzzy._scoreNameMatch q a.name).score > s'
      · simp only [hgt, if_true] at h
        injection h with h
        injection h with h1 h2
        subst h1
        subst h2
        refine ⟨rfl, ?_, l.length, ?_, ?_⟩
        · intro x hx
          rcases List.mem_append.mp hx with hx | hx
          · exact le_of_lt (lt_of_le_of_lt (ihbound x hx) hgt)
          · rcases List.mem_singleton.mp hx with rfl
            exact le_refl _
        · exact List.get?_concat_length l a
        · intro k x hk hget
          rw [List.get?_append hk] at hget
          exact lt_of_le_of_lt (ihbound x (List.get?_mem hget)) hgt
      · simp only [hgt, if_false] at h
        injection h with h
        injection h with h1 h2
        subst h1
        subst h2
        refine ⟨ihs, ?_, i, ?_, ?_⟩
        · intro x hx
          rcases List.mem_append.mp hx with hx | hx
          · exact ihbound x hx
          · rcases List.mem_singleton.mp hx with rfl
            exact le_of_not_lt hgt
        · rw [List.get?_append hilt]
          exact ihget
        · intro k x hk hget
          rw [List.get?_append (lt_trans hk hilt)] at hget
          exact ihstrict k x hk hget

end Products

/-- Claim C5 (amended): in the fuzzy tier the score fold ranges over ALL
items, not only the remaining ones: `fuzzyBest` returns the highest-scoring
item overall with the lowest index winning ties, and the declaration is
paired with it exactly when that overall winner is not yet consumed and its
score is ≥ 0.45; when the overall winner is already consumed the cascade
falls through to the positional tier even if some remaining item clears the
threshold (see the counterexample). -/
theorem C5_fuzzy_tier_selection :
    ∀ (inorm : List Products.INorm) (customsLen : ℕ) (usedIdx : List ℕ) (cidx : ℕ)
      (ci : Products.CustomsSrc) (cand : Products.INorm) (s : ℚ),
      Products.tierOrderItemId inorm "" ci = none →
      Products.tierProductId inorm "" ci = none →
      Products.tierExact inorm usedIdx "" ci = none →
      Products.fuzzyBest (ci.description.getD "") inorm = some (cand, s) →
      (s = (Fuzzy._scoreNameMatch (ci.description.getD "") cand.name).score ∧
        (∀ x ∈ inorm,
          (Fuzzy._scoreNameMatch (ci.description.getD "") x.name).score ≤ s) ∧
        ∃ i, inorm.get? i = some cand ∧ ∀ k x, k < i → inorm.get? k = some x →
          (Fuzzy._scoreNameMatch (ci.description.getD "") x.name).score < s) ∧
      (usedIdx.contains cand.idx = false → (45/100 : ℚ) ≤ s →
        Products.syncChosen inorm customsLen usedIdx cidx ci "" =
          some { cand := cand, src := "name-fuzzy",
                 matchedName := (if cand.name == "" then none else some cand.name),
                 confidence := some (Products.round2 s) }) ∧
      ((usedIdx.contains cand.idx = true ∨ s < 45/100) →
        Products.syncChosen inorm customsLen usedIdx cidx ci "" =
          Products.tierPosition inorm customsLen usedIdx cidx "") := by
  intro inorm len used cidx ci cand s h1 h2 h3 hfb
  refine ⟨Products.fuzzyBest_spec hfb, ?_, ?_⟩
  · intro hnc hth
    unfold Products.syncChosen
    simp only [h1, h2, h3]
    have hf : Products.tierFuzzy inorm used "" ci =
        some { cand := cand, src := "name-fuzzy",
               matchedName := (if cand.name == "" then none else some cand.name),
               confidence := some (Products.round2 s) } := by
      unfold Products.tierFuzzy
      simp [show (("" : String) == "") = true from rfl, hfb, hnc, hth]
      simpa using hnc
    simp only [hf]
  · intro hor
    unfold Products.syncChosen
    simp only [h1, h2, h3]
    have hf : Products.tierFuzzy inorm used "" ci = none := by
      unfold Products.tierFuzzy
      simp only [show (("" : String) == "") = true from rfl, reduceIte, hfb]
      rcases hor with hc | hs
      · simp [hc]
        intro hmem
        exact absurd (by simpa using hc) hmem
      · have hns : ¬ ((45/100 : ℚ) ≤ s) := not_le.mpr hs
        simp [hns]
    simp only [hf]

/-- Claim C5 counterexample: declaration 1 ("alpha beta gamma") is left
unmatched ("missing") although the remaining item 1 ("alpha beta") scores
19/30 ≥ 0.45 — the code discarded the fuzzy tier because the GLOBAL best
(item 0) was already consumed by the exact tier, while the claim as stated
requires pairing with the best REMAINING item. -/
theorem C5_fuzzy_tier_selection_cx :
    ((Products.syncCustomsSkus
      { items := [{ sku := some "K0", name := some "alpha beta gamma delta" },
                  { sku := some "K1", name := some "alpha beta" },
                  { sku := some "K2", name := some "zzz" }],
        customsItems := [{ description := some "alpha beta gamma delta" },
                         { description := some "alpha beta gamma" }] }).plan.map
      (fun e => (e.source, e.itemIndex)) =
      [("name-exact", some 0), ("missing", (none : Option ℕ))]) ∧
    (45/100 : ℚ) ≤ (Fuzzy._scoreNameMatch "alpha beta gamma" "alpha beta").score := by
  exact ⟨by decide, by decide⟩

/-- The item record appearing in the C5 witness order. -/
def c5cand : Products.INorm :=
  { idx := 0, sku := "K1", name := "alpha beta", normName := "alpha beta",
    productId := none, orderItemId := none }

/-- Witness for C5: a single-item order whose only item wins the fuzzy
tier. -/
theorem C5_fuzzy_tier_selection_witness :
    Products.syncChosen (Products.mkInorm
      [{ sku := some "K1", name := some "alpha beta" }]) 1 [] 0
      { description := some "alpha beta gamma" } "" =
    some { cand := c5cand, src := "name-fuzzy",
           matchedName := (if c5cand.name == "" then none else some c5cand.name),
           confidence := some (Products.round2 (19/30)) } :=
  (C5_fuzzy_tier_selection (Products.mkInorm [{ sku := some "K1", name := some "alpha beta" }]) 1 [] 0
    { description := some "alpha beta gamma" } c5cand (19/30)
    (by decide) (by decide) (by decide) (by decide)).2.1 (by decide) (by decide)


end MatcherProofs

namespace Updater

theorem mergeStep_length_mono (st : List ULine × List ℕ) (item : UItem) :
    st.1.length ≤ (mergeStep st item).1.length := by
  unfold mergeStep
  cases hm : getCustomsData item.name item.category with
  | none => exact le_refl _
  | some mtch =>
    simp only []
    cases hidx : findExistingLineIndex item (formatDesc mtch.description item.sku)
        st.1 st.2 with
    | some i =>
      simp only [hidx, List.length_set]
      exact le_refl _
    | none =>
      simp only [hidx]
      split
      · exact le_refl _
      · simp

theorem foldl_mergeStep_length (items : List UItem) :
    ∀ st : List ULine × List ℕ, st.1.length ≤ (items.foldl mergeStep st).1.length := by
  induction items with
  | nil => intro st; exact le_refl _
  | cons hd tl ih =>
    intro st
    exact le_trans (mergeStep_length_mono st hd) (ih (mergeStep st hd))

end Updater

/-- Claim C2: `mergeCustomsItems` always succeeds (the fatal "Safety check"
branch is unreachable) and the merged list is never shorter than the
existing customs lines: the loop only overwrites a line in place, appends a
new line, or leaves the list unchanged. -/
theorem C2_merge_no_shrinkage :
    ∀ order : Updater.UOrder, ∃ merged,
      Updater.mergeCustomsItems order = .ok merged ∧
      (order.customsItems.getD []).length ≤ merged.length := by
  intro order
  have hle := Updater.foldl_mergeStep_length order.items (order.customsItems.getD [], [])
  refine ⟨(order.items.foldl Updater.mergeStep (order.customsItems.getD [], [])).1, ?_, hle⟩
  unfold Updater.mergeCustomsItems
  rw [if_neg]
  simp only [decide_eq_true_eq, not_lt]
  exact hle

section UpdaterEval

attribute [local semireducible] Rat.mul Rat.add Rat.inv

/-- Claim C7 failing input: reconciliation is NOT idempotent.  For an item
with a falsy (zero) `unitPrice`, the line value is computed as
`(unitPrice || mergedLine.value || 0) * quantity`, multiplying the line's
stored TOTAL value by the quantity again on every run: the first merge turns
value 5 into 10, and re-merging the already-merged order turns 10 into 20
instead of returning its input unchanged. -/
theorem C7_merge_not_idempotent :
    Updater.mergeCustomsItems
      { items := [{ name := some "2025 Planner", category := some "2025 planners",
                    sku := some "X", quantity := some 2, unitPrice := some 0 }],
        customsItems := some
          [{ description := some "Planner agenda (bound diary) — SKU X",
             quantity := some 2, value := some 5 }] } =
      .ok [{ customsItemId := none,
             description := some "Planner agenda (bound diary) — SKU X",
             quantity := some 2, value := some 10,
             harmonizedTariffCode := some "4820.10.2010",
             countryOfOrigin := some "CA" }] ∧
    Updater.mergeCustomsItems
      { items := [{ name := some "2025 Planner", category := some "2025 planners",
                    sku := some "X", quantity := some 2, unitPrice := some 0 }],
        customsItems := some
          [{ customsItemId := none,
             description := some "Planner agenda (bound diary) — SKU X",
             quantity := some 2, value := some 10,
             harmonizedTariffCode := some "4820.10.2010",
             countryOfOrigin := some "CA" }] } =
      .ok [{ customsItemId := none,
             description := some "Planner agenda (bound diary) — SKU X",
             quantity := some 2, value := some 20,
             harmonizedTariffCode := some "4820.10.2010",
             countryOfOrigin := some "CA" }] ∧
    ((some (20 : ℚ) : Option ℚ) ≠ some (10 : ℚ)) := by
  refine ⟨rfl, rfl, by decide⟩

end UpdaterEval

namespace SkuGen

open JsStr Rx

/-- ASCII upper-casing (`String.prototype.toUpperCase`, ASCII part). -/
def asciiUpper (c : Char) : Char :=
  if 'a' ≤ c ∧ c ≤ 'z' then Char.ofNat (c.toNat - 32) else c

/-- The class `[A-Z0-9]`. -/
def isUpperAN (c : Char) : Bool :=
  ('A' ≤ c && c ≤ 'Z') || isDigitC c

/-- Upper-case a whole string. -/
def upperStr (s : String) : String :=
  ⟨s.data.map asciiUpper⟩

/-- `productTypes` of `SKU_RULES`. -/
def productTypes : List (String × String) :=
  [ ("daily planner", "DLP"), ("daily", "DLP"),
    ("weekly planner", "WKP"), ("weekly", "WKP"),
    ("horizontal planner", "HLP"), ("horizontal", "HLP"),
    ("insert", "INS"), ("inserts", "INS"),
    ("refill", "RFL"), ("refills", "RFL"),
    ("notebook", "NTB"), ("notebooks", "NTB"),
    ("journal", "NTB"),
    ("stickers", "STK"),
    ("gift card", "GFT") ]

/-- `subtypes` of `SKU_RULES`. -/
def subtypes : List (String × String) :=
  [ ("blank", "BLNK"), ("dotted", "DOT"), ("dot grid", "DOT"),
    ("graph", "GRD"), ("grid", "GRD"), ("lined", "LIN"),
    ("weekly inserts", "WKL"), ("horizontal inserts", "HNL") ]

/-- `collections` of `SKU_RULES`. -/
def collections : List (String × String) :=
  [ ("jewlry", "JWL"), ("jewellery", "JWL"), ("undated", "UND"),
    ("minimalist", "MIN"), ("square bullets", "SQB"), ("square bullet", "SQB"),
    ("time management", "TMG"), ("monthly tab", "TAB"), ("wellness", "WLN"),
    ("decorative", "DCR"), ("highlight", "HLT"), ("charm", "CHRM"),
    ("bundle", "BNDL"), ("signature planner bundle", "PLNR-BNDL"),
    ("clip band elastics", "CLP-ELS"), ("printable", "PRNT"),
    ("finance", "FIN") ]

/-- `jewelryTypes` of `SKU_RULES`. -/
def jewelryTypes : List (String × String) :=
  [ ("earring", "EAR"), ("earrings", "EAR"), ("stud", "EAR"), ("studs", "EAR"),
    ("bracelet", "BRC"), ("bracelets", "BRC"),
    ("pendant", "PND"), ("pendants", "PND"),
    ("necklace", "NCK"), ("necklaces", "NCK"),
    ("ring", "RNG"), ("rings", "RNG") ]

/-- `materials` of `SKU_RULES`. -/
def materials : List (String × String) :=
  [ ("gold", "GLD"), ("14k gold", "GLD-14"), ("18k gold", "GLD-18"),
    ("gold-plated", "GLD"), ("silver", "SLV"), ("sterling silver", "SLV"),
    ("rose gold", "RGL"), ("brass", "BRS"), ("steel", "STL") ]

/-- `packs` of `SKU_RULES`. -/
def packs : List (String × String) :=
  [ ("single", "SN"), ("one", "SN"), ("pair", "PR"), ("pairs", "PR") ]

/-- `sizes` of `SKU_RULES`. -/
def sizes : List (String × String) :=
  [ ("a5", "A5"), ("b5", "B5"), ("tn", "TN"), ("half letter", "HL"),
    ("classic", "CL"), ("classic hp", "CL"),
    ("discbound - half letter", "DB-HL"), ("disc-bound classic hp", "DB-CL") ]

/-- `colors` of `SKU_RULES`. -/
def colors : List (String × String) :=
  [ ("charbon", "CHB"), ("witching hour", "WCH"), ("willow", "WIL"),
    ("wild orchid", "WOR"), ("pacific", "PAC"), ("juniper", "JUN"),
    ("deep aster", "DAH"), ("aster", "AST"), ("slate", "SLA"),
    ("moss", "MOS"), ("rivière", "RIV"), ("riviere", "RIV"),
    ("light riviere", "LRV"), ("enchanted forest", "ECF"), ("autumnal", "AUT"),
    ("blossomfield", "BLO"), ("fawn", "FWN"), ("elderberry", "ELD"),
    ("lilac", "LIL"), ("secret garden", "SCG"), ("rosewood", "RWO"),
    ("wisteria", "WIS"), ("marigold", "MRG"), ("white oak", "WOK"),
    ("oak", "OAK"), ("nimbus", "NIM"), ("toile de lin", "TDL"),
    ("deep forest", "DPF"), ("deep oak", "DPO"),
    ("washi", "WSH"), ("pink", "PNK"), ("pink dots", "PND"),
    ("glacial", "GLC"), ("pastel cream", "PCR"), ("mocha", "MOC"),
    ("evergreen", "EVG"), ("empress blue", "EMB"), ("aqua", "AQA"),
    ("matte white", "MWH"), ("fog", "FOG"), ("lichen", "LIC"),
    ("sweet almond", "SWA"), ("dahlia", "DAH"), ("hyacinth", "HYA"),
    ("matte purple", "MAP"), ("dusty mint", "DUM"), ("moonflower", "MNF"),
    ("oasis", "OAS"), ("pewter", "PEW"), ("heart spot", "HSP"),
    ("pink bubbles", "PKB"), ("pink star", "PKS"), ("gold star", "GST"),
    ("red star", "RST"), ("pink mini dots", "PMD"), ("red mini dots", "RMD"),
    ("pink waves", "PW"), ("teal waves", "TW"), ("diamond mini grid", "DMG"),
    ("gold square graph", "GSG"), ("blue square graph grid", "BSG"),
    ("cyan square grid", "CSG"), ("milk tea dots", "MTD"),
    ("navy mini dots", "NVM"), ("silver dots", "SLD"),
    ("navy blue stripes", "NBS"), ("light blue stripes", "LBS"),
    ("peony", "PNY"), ("light earth", "LTE"), ("meadow", "MDW"),
    ("sea to sky", "STS"), ("life in pastels", "LFP"), ("foxberry", "FXB"),
    ("matte black", "MTB"), ("summer solstice", "SMT"),
    ("spring neutrals", "SPN"), ("hydrangea", "HDR"), ("lakeside", "LKS"),
    ("poplar", "PLR"), ("clove", "CLV"), ("mulberry", "MLB"),
    ("lavande", "LVD"), ("matte gold", "MAG"), ("buttercup", "BTR"),
    ("snapdragon", "SNP"), ("woodlands", "WDL"), ("wild indigo", "WIN"),
    ("plum grove", "PLG") ]

/-- `motifs` of `SKU_RULES`. -/
def motifs : List (String × String) :=
  [ ("lunar", "LNR"), ("lumine", "LUM"), ("solstice", "SOL"),
    ("rabbit", "RBT"), ("heart of the forest", "HOF"), ("mushroom", "MSH"),
    ("hummingbird", "HUM"), ("jardin", "JAR"), ("floriculture", "FLC"),
    ("monarque", "MON"), ("blank", "BLNK"),
    ("heart of the forest lined notebook", "HOF"),
    ("heart of the forest dotted notebook", "HOF") ]

/-- `brands`: `/mt\s*washi/i` then `/(^|\s)mt(\s|$)/i` (anchors expanded),
each with its code. -/
def brands : List (RPat × String) :=
  [ (⟨[litE "mt" ++ [RElem.star isJsWs] ++ litE "washi"]⟩, "MT"),
    (⟨[ [RElem.bos] ++ litE "mt" ++ [RElem.cls isJsWs],
        [RElem.bos] ++ litE "mt" ++ [RElem.eos],
        [RElem.cls isJsWs] ++ litE "mt" ++ [RElem.cls isJsWs],
        [RElem.cls isJsWs] ++ litE "mt" ++ [RElem.eos]]⟩, "MT") ]

/-- `washiType`. -/
def washiType : String :=
  "WAS"

/-- `imperfectRegex`: `\bimperfect|imperfection(s)?\b`. -/
def imperfectRx : RPat :=
  ⟨[[RElem.bound] ++ litE "imperfect",
    litE "imperfection" ++ [RElem.qmark (· == 's'), RElem.bound]]⟩

/-- `/gift\s*card/i`. -/
def giftCardRx : RPat :=
  ⟨[litE "gift" ++ [RElem.star isJsWs] ++ litE "card"]⟩

/-- `fallback3`: compact 3-letter code from the first word (upper-cased,
padded with X).  The JS distinguishes one word from several but returns the
same expression in both cases. -/
def fallback3 (str : String) : String :=
  let cleaned := (str.data.map asciiUpper).map
    (fun c => if isUpperAN c || isJsWs c then c else ' ')
  let words := (splitSp (trimSp (collapseWs cleaned))).filter (fun w => w ≠ [])
  match words with
  | [] => "XXX"
  | w :: _ => ⟨w.take 3 ++ List.replicate (3 - (w.take 3).length) 'X'⟩

/-- Stable insertion into a list sorted by descending key length. -/
def insertDesc (x : String × String) : List (String × String) → List (String × String)
  | [] => [x]
  | y :: ys => if y.1.length ≤ x.1.length then x :: y :: ys else y :: insertDesc x ys

/-- Stable sort by descending key length, as JS `sort` with
`(a,b) => b.length - a.length` (JS `Array.prototype.sort` is stable). -/
def sortKeysDesc : List (String × String) → List (String × String)
  | [] => []
  | x :: xs => insertDesc x (sortKeysDesc xs)

/-- `_pick`: case-insensitive dictionary match preferring longer keys. -/
def _pick (text : String) (dict : List (String × String)) : String :=
  if text == "" then ""
  else
    let s := CustomsRules.lowerStr text
    match (sortKeysDesc dict).find? (fun kv => CustomsRules.strIncludes s (CustomsRules.lowerStr kv.1)) with
    | some kv => kv.2
    | none => ""

/-- `_findYear`: leftmost `\b(20\d{2})\b`, returning the last two digits. -/
def findYearAux : Option Char → List Char → Option String
  | prev, s =>
    (if atBound prev s then
      match s with
      | '2' :: '0' :: d1 :: d2 :: rest =>
        if isDigitC d1 && isDigitC d2 && atBound (some d2) rest then
          some ⟨[d1, d2]⟩
        else none
      | _ => none
    else none).orElse (fun _ =>
      match s with
      | [] => none
      | c :: cs => findYearAux (some c) cs)

/-- `_findYear` on a string (empty string when there is no match). -/
def _findYear (s : String) : String :=
  (findYearAux none s.data).getD ""

/-- `_findProductType`. -/
def _findProductType (pt : String) : String :=
  _pick pt productTypes

/-- `_findSubtype`. -/
def _findSubtype (hay : String) : String :=
  _pick hay subtypes

/-- `_findCollection`. -/
def _findCollection (pt : String) : String :=
  _pick pt collections

/-- `_isImperfect` at its two-argument call site. -/
def _isImperfect (pt vt : String) : Bool :=
  rtest imperfectRx pt || rtest imperfectRx vt

/-- `_isNumericOnly`: `/^\s*[$€£]?\s*\d+(\.\d{2})?\s*$/`. -/
def _isNumericOnly (s : String) : Bool :=
  let l := s.data.dropWhile isJsWs
  let l := match l with
    | c :: cs => if c == '$' || c == '€' || c == '£' then cs else l
    | [] => l
  let l := l.dropWhile isJsWs
  let digits := l.takeWhile isDigitC
  let rest := l.dropWhile isDigitC
  let tailOk := fun (r : List Char) => (r.dropWhile isJsWs).isEmpty
  if digits.isEmpty then false
  else
    match rest with
    | '.' :: d1 :: d2 :: r => (isDigitC d1 && isDigitC d2 && tailOk r) || tailOk rest
    | _ => tailOk rest

/-- `_isGenericVariant`: `/^(default( title)?|standard|regular)$/i` on the
trimmed string. -/
def _isGenericVariant (s : String) : Bool :=
  let t := CustomsRules.lowerStr (Products.jsTrim s)
  t == "default" || t == "default title" || t == "standard" || t == "regular"

/-- `_findColor`. -/
def _findColor (pt vt : String) (optsArr : List String) : String :=
  let sources := (optsArr ++ [vt, pt]).filter (fun s => s ≠ "")
  match sources.findSome? (fun src =>
      let c := _pick src colors
      if c ≠ "" then some c else none) with
  | some c => c
  | none =>
    if vt ≠ "" && !(_isNumericOnly vt) && !(_isGenericVariant vt) then
      fallback3 vt
    else ""

/-- `_findMotif`. -/
def _findMotif (pt vt : String) : String :=
  _pick (pt ++ " " ++ vt) motifs

/-- `_findJewelryType`. -/
def _findJewelryType (pt : String) : String :=
  _pick pt jewelryTypes

/-- `_findMaterial`. -/
def _findMaterial (optsArr : List String) (hay : String) : String :=
  ((optsArr ++ [hay]).findSome? (fun src =>
    let m := _pick src materials
    if m ≠ "" then some m else none)).getD ""

/-- `_findPack`. -/
def _findPack (optsArr : List String) (hay : String) : String :=
  ((optsArr ++ [hay]).findSome? (fun src =>
    let p := _pick src packs
    if p ≠ "" then some p else none)).getD ""

/-- The plain `(^|\s)(A5|B5|TN)(\s|$)` scan of `_findSize` (leftmost match,
returning the matched two characters as they appear). -/
def findSizeTokenAux : Option Char → List Char → Option String
  | prev, s =>
    (match s with
     | a :: b :: rest =>
       if (match prev with
           | none => true
           | some p => isJsWs p) &&
          ((asciiLower a == 'a' && b == '5') || (asciiLower a == 'b' && b == '5') ||
           (asciiLower a == 't' && asciiLower b == 'n')) &&
          (match rest with
           | [] => true
           | c :: _ => isJsWs c) then
         some (⟨[a, b]⟩ : String)
       else none
     | _ => none).orElse (fun _ =>
      match s with
      | [] => none
      | c :: cs => findSizeTokenAux (some c) cs)

/-- `_findSize`. -/
def _findSize (optsArr : List String) (pt vt : String) : String :=
  match (optsArr ++ [vt, pt]).findSome? (fun src =>
      let s := _pick src sizes
      if s ≠ "" then some s else none) with
  | some s => s
  | none => (findSizeTokenAux none (pt ++ " " ++ vt).data).getD ""

/-- `_giftAmount`'s `grab`: the first run of digits, at most four of them. -/
def grabAmount (txt : String) : String :=
  ⟨((txt.data.dropWhile (fun c => !(isDigitC c))).takeWhile isDigitC).take 4⟩

/-- `_giftAmount`. -/
def _giftAmount (pt vt : String) : String :=
  let a := grabAmount vt
  if a ≠ "" then a else grabAmount pt

end SkuGen

namespace SkuGen

open JsStr Rx

/-- JS `a || b` on strings. -/
def orS (a b : String) : String :=
  if a ≠ "" then a else b

/-- String split on `'-'` (JS `sku.split('-')`). -/
def splitDashAux : List Char → List Char → List (List Char)
  | acc, [] => [acc.reverse]
  | acc, c :: cs =>
    if c == '-' then acc.reverse :: splitDashAux [] cs
    else splitDashAux (c :: acc) cs

/-- Join segment lists with `'-'` (JS `segments.join('-')`). -/
def dashJoin : List (List Char) → List Char
  | [] => []
  | s :: rest => s ++ rest.flatMap (fun t => '-' :: t)

/-- `/^(SN|PR|S\d)$/i` on one segment. -/
def isPackToken (seg : List Char) : Bool :=
  let l := seg.map asciiLower
  l == ['s', 'n'] || l == ['p', 'r'] ||
  (match l with
   | ['s', d] => isDigitC d
   | _ => false)

/-- Index of the first pack-code segment (`findIndex`). -/
def findPackIdx : ℕ → List (List Char) → Option ℕ
  | _, [] => none
  | i, s :: rest => if isPackToken s then some i else findPackIdx (i + 1) rest

/-- `dropOne` token list. -/
def dropOneList : List (List Char) :=
  [['L','M','N'], ['B','L','N','K'], ['D','O','T'], ['L','I','N'], ['G','R','D']]

/-- The downward `dropOne` loop of `_joinAndTrim`: fuel is the current index
plus one; stops as soon as the joined SKU fits. -/
def dropLoop (MX : ℕ) : ℕ → List (List Char) → List (List Char)
  | 0, segs => segs
  | i + 1, segs =>
    if (dashJoin segs).length ≤ MX then segs
    else
      let segs' :=
        match segs.get? i with
        | some s => if dropOneList.contains s then segs.eraseIdx i else segs
        | none => segs
      dropLoop MX i segs'

/-- `_joinAndTrim`. -/
def _joinAndTrim (MX : ℕ) (parts : List String) : String :=
  let sku := (dashJoin ((parts.filter (fun p => p ≠ "")).map String.data)).map asciiUpper
  if sku.length ≤ MX then ⟨sku⟩
  else
    let segs0 := splitDashAux [] sku
    let segs1 :=
      match findPackIdx 0 segs0 with
      | some i => segs0.eraseIdx i
      | none => segs0
    let sku2 := dashJoin (dropLoop MX segs1.length segs1)
    if sku2.length ≤ MX then ⟨sku2⟩
    else ⟨(sku2.filter (fun c => c ≠ '-')).take MX⟩

/-- `_appendSuffix`. -/
def _appendSuffix (MX : ℕ) (base suffix : String) : String :=
  let hy := base ++ "-" ++ suffix
  if hy.length ≤ MX then hy
  else
    let tight := base ++ suffix
    if tight.length ≤ MX then tight
    else
      let compact := (base.data.filter (fun c => c ≠ '-')).take (MX - suffix.length)
      ⟨(compact ++ suffix.data).map asciiUpper⟩

/-- The 26 ASCII capitals. -/
def capitals : List Char :=
  "ABCDEFGHIJKLMNOPQRSTUVWXYZ".data

/-- The 676 two-letter suffixes `AA`, `AB`, …, `ZZ`, in loop order. -/
def letterPairs : List String :=
  capitals.flatMap (fun a => capitals.map (fun b => (⟨[a, b]⟩ : String)))

/-- `if (!base) base = 'SKU'` — the first line of `_uniqueify`. -/
def uniqBase (b : String) : String :=
  if b == "" then "SKU" else b

/-- `_uniqueify`; `now` stands for `Date.now().toString(36)`. -/
def _uniqueify (MX : ℕ) (base0 : String) (isUsed : String → Bool) (now : String) : String :=
  let base := uniqBase base0
  if !(isUsed base) then base
  else
    match letterPairs.findSome? (fun p =>
        let cand := _appendSuffix MX base p
        if !(isUsed cand) then some cand else none) with
    | some cand => cand
    | none =>
      let fb := _appendSuffix MX base (upperStr ⟨(now.data.reverse.take 2).reverse⟩)
      ⟨fb.data.take MX⟩

/-- `_ensureDescriptive`. -/
def _ensureDescriptive (parts : List String) (fallbackFrom : String) : List String :=
  let compact := parts.filter (fun p => p ≠ "")
  if 2 ≤ compact.length then parts
  else
    let fb := fallback3 fallbackFrom
    if fb ≠ "" then compact ++ [fb] else compact

/-- The tail of `generate`'s regular-goods branch: the `_joinAndTrim` of the
collected parts plus the last-resort fallback when it comes out empty. -/
def lastResort (MX : ℕ) (ty co fbsrc : String) (parts : List String) : String :=
  let base := _joinAndTrim MX parts
  if base ≠ "" then base
  else
    let fb := fallback3 fbsrc
    let base2 := _joinAndTrim MX [orS ty (orS co fb), fb]
    if base2 ≠ "" then base2 else orS fb "SKU"

/-- `generate` up to (excluding) the shared trailing `_uniqueify` call; `MX`
and `IM` are the constructor's `maxLength` and `imperfectCode`. -/
def generateBase (MX : ℕ) (IM : String) (pt vt : String) (optsArr : List String) : String :=
  let hay := Products.jsTrim (pt ++ " " ++ vt)
  match brands.find? (fun b => rtest b.1 pt) with
  | some bh =>
    let color := orS (_findColor pt vt optsArr) (fallback3 (orS vt pt))
    _joinAndTrim MX [bh.2, washiType, color]
  | none =>
    let jType := _findJewelryType pt
    if jType ≠ "" then
      let motif := orS (_findMotif pt vt) (orS (_findColor pt vt optsArr) (fallback3 pt))
      let pack := _findPack optsArr hay
      let material := _findMaterial optsArr hay
      _joinAndTrim MX ["JWL", motif, jType, pack, material]
    else
      let year := _findYear hay
      let type := _findProductType pt
      let subtype := _findSubtype hay
      let collection := _findCollection pt
      let size := _findSize optsArr pt vt
      let color := _findColor pt vt optsArr
      let imperfect := _isImperfect pt vt
      if type == "GFT" || rtest giftCardRx pt then
        let amt := _giftAmount pt vt
        _joinAndTrim MX ["GFT", orS amt (fallback3 (orS vt pt))]
      else
        let parts :=
          if year == "" && type == "NTB" then
            let parts := [type, subtype, collection, color]
            let parts := if size ≠ "" then parts.take 2 ++ [size] ++ parts.drop 2 else parts
            if imperfect then parts ++ [IM] else parts
          else if type == "INS" || type == "RFL" then
            let parts := [type, size, subtype, collection, color]
            let parts := _ensureDescriptive parts (orS vt pt)
            if imperfect then parts ++ [IM] else parts
          else
            let parts :=
              (if year ≠ "" then [year] else []) ++ (if type ≠ "" then [type] else []) ++
              (if subtype ≠ "" then [subtype] else []) ++
              (if collection ≠ "" then [collection] else []) ++
              (if size ≠ "" then [size] else []) ++ (if color ≠ "" then [color] else [])
            let parts :=
              if (parts.filter (fun p => p ≠ "")).length < 2 then
                let fb := fallback3 (orS vt pt)
                if fb ≠ "" then parts ++ [fb] else parts
              else parts
            if imperfect then parts ++ [IM] else parts
        lastResort MX type collection (orS vt pt) parts

/-- `SKUGenerator.generate`: every branch ends in `_uniqueify(base, isUsedFn)`,
factored out here. -/
def generate (MX : ℕ) (IM : String) (pt vt : String) (isUsed : String → Bool)
    (optsArr : List String) (now : String) : String :=
  _uniqueify MX (generateBase MX IM pt vt optsArr) isUsed now

end SkuGen

namespace SkuGen

theorem mk_ne_empty {l : List Char} (h : l ≠ []) : (⟨l⟩ : String) ≠ "" := by
  intro he
  rw [String.ext_iff] at he
  exact h he

theorem take_ne_nil_of_pos : ∀ {n : ℕ}, 0 < n → ∀ {l : List Char}, l ≠ [] → l.take n ≠ [] := by
  intro n hn l hl
  cases n with
  | zero => exact absurd hn (by omega)
  | succ m =>
    cases l with
    | nil => exact absurd rfl hl
    | cons c cs => simp [List.take_succ_cons]

theorem joinAndTrim_le (MX : ℕ) (parts : List String) :
    (_joinAndTrim MX parts).length ≤ MX := by
  unfold _joinAndTrim
  dsimp only
  split_ifs with h1 h2
  · exact h1
  · exact h2
  · show ((_ : List Char).take MX).length ≤ MX
    rw [List.length_take]
    exact min_le_left _ _

theorem appendSuffix_le (MX : ℕ) (base sfx : String) (h : sfx.length ≤ MX) :
    (_appendSuffix MX base sfx).length ≤ MX := by
  unfold _appendSuffix
  dsimp only
  split_ifs with h1 h2
  · exact h1
  · exact h2
  · show (((base.data.filter (fun c => c ≠ '-')).take (MX - sfx.length) ++ sfx.data).map asciiUpper).length ≤ MX
    rw [List.length_map, List.length_append, List.length_take]
    have hm := min_le_left (MX - sfx.length) (base.data.filter (fun c => c ≠ '-')).length
    have hsd : sfx.data.length = sfx.length := rfl
    omega

theorem appendSuffix_ne (MX : ℕ) (base sfx : String) (h : sfx ≠ "") :
    _appendSuffix MX base sfx ≠ "" := by
  have hd : sfx.data ≠ [] := by
    intro he
    exact h (by rw [String.ext_iff]; exact he)
  unfold _appendSuffix
  dsimp only
  split_ifs with h1 h2
  · intro he
    rw [String.ext_iff] at he
    simp [String.data_append] at he
  · intro he
    rw [String.ext_iff] at he
    simp [String.data_append] at he
    exact hd he.2
  · apply mk_ne_empty
    intro he
    rw [List.map_eq_nil_iff, List.append_eq_nil] at he
    exact hd he.2

theorem uniqBase_ne (b : String) : uniqBase b ≠ "" := by
  unfold uniqBase
  split_ifs with h
  · decide
  · intro he
    rw [he] at h
    simp at h

theorem uniqBase_le (MX : ℕ) (b : String) (h3 : 3 ≤ MX) (hb : b.length ≤ MX) :
    (uniqBase b).length ≤ MX := by
  unfold uniqBase
  split_ifs with h
  · have hsku : ("SKU" : String).length = 3 := rfl
    omega
  · exact hb

theorem fallback3_len (s : String) : (fallback3 s).length = 3 := by
  unfold fallback3
  dsimp only
  split
  · rfl
  · next w ws heq =>
    show (w.take 3 ++ List.replicate (3 - (w.take 3).length) 'X').length = 3
    rw [List.length_append, List.length_replicate, List.length_take]
    have := min_le_left 3 w.length
    omega

theorem lastResort_le (MX : ℕ) (ty co fbsrc : String) (parts : List String) (h3 : 3 ≤ MX) :
    (lastResort MX ty co fbsrc parts).length ≤ MX := by
  unfold lastResort
  dsimp only
  split_ifs with h1 h2
  · exact joinAndTrim_le MX _
  · exact joinAndTrim_le MX _
  · unfold orS
    split_ifs with h4
    · rw [fallback3_len]
      exact h3
    · have hsku : ("SKU" : String).length = 3 := rfl
      omega

theorem generateBase_le (MX : ℕ) (IM pt vt : String) (optsArr : List String) (h3 : 3 ≤ MX) :
    (generateBase MX IM pt vt optsArr).length ≤ MX := by
  unfold generateBase
  dsimp only
  split
  · exact joinAndTrim_le MX _
  · by_cases hj : _findJewelryType pt ≠ ""
    · rw [if_pos hj]
      exact joinAndTrim_le MX _
    · rw [if_neg hj]
      by_cases hg : (_findProductType pt == "GFT" || Rx.rtest giftCardRx pt) = true
      · rw [if_pos hg]
        exact joinAndTrim_le MX _
      · rw [if_neg hg]
        exact lastResort_le MX _ _ _ _ h3

theorem findSome_mem_of_eq_some {α β : Type} (f : α → Option β) (l : List α) (y : β)
    (h : l.findSome? f = some y) : ∃ x, x ∈ l ∧ f x = some y := by
  induction l with
  | nil => simp [List.findSome?_nil] at h
  | cons a as ih =>
    cases hfa : f a with
    | some b =>
      simp only [List.findSome?_cons, hfa] at h
      exact ⟨a, List.mem_cons_self a as, by rw [hfa, h]⟩
    | none =>
      simp only [List.findSome?_cons, hfa] at h
      obtain ⟨x, hx, hfx⟩ := ih h
      exact ⟨x, List.mem_cons_of_mem a hx, hfx⟩

theorem findSome_forall_none {α β : Type} (f : α → Option β) (l : List α)
    (h : l.findSome? f = none) : ∀ x ∈ l, f x = none := by
  induction l with
  | nil => intro x hx; simp at hx
  | cons a as ih =>
    cases hfa : f a with
    | some b =>
      simp only [List.findSome?_cons, hfa] at h
      exact absurd h (by simp)
    | none =>
      simp only [List.findSome?_cons, hfa] at h
      intro x hx
      rcases List.mem_cons.mp hx with rfl | hx'
      · exact hfa
      · exact ih h x hx'

theorem letterPairs_len : ∀ p ∈ letterPairs, p.length = 2 := by
  intro p hp
  simp only [letterPairs, List.mem_flatMap, List.mem_map] at hp
  obtain ⟨a, _, b, _, rfl⟩ := hp
  rfl

theorem len_two_ne_empty {p : String} (h : p.length = 2) : p ≠ "" := by
  intro he
  subst he
  exact absurd h (by decide)

end SkuGen

namespace SkuGen

theorem uniqueify_eq (MX : ℕ) (b0 : String) (isUsed : String → Bool) (now : String) :
    _uniqueify MX b0 isUsed now =
      (if !(isUsed (uniqBase b0)) then uniqBase b0
       else
         match List.findSome? (fun p =>
             if !(isUsed (_appendSuffix MX (uniqBase b0) p)) then
               some (_appendSuffix MX (uniqBase b0) p)
             else none) letterPairs with
         | some cand => cand
         | none =>
           (⟨(_appendSuffix MX (uniqBase b0)
               (upperStr ⟨(now.data.reverse.take 2).reverse⟩)).data.take MX⟩ : String)) := rfl

theorem uniqueify_spec (MX : ℕ) (b0 : String) (isUsed : String → Bool) (now : String)
    (hb : (uniqBase b0).length ≤ MX) (h3 : 3 ≤ MX) (hnow : now ≠ "") :
    _uniqueify MX b0 isUsed now ≠ "" ∧ (_uniqueify MX b0 isUsed now).length ≤ MX ∧
      (isUsed (_uniqueify MX b0 isUsed now) = false ∨
        (isUsed (uniqBase b0) = true ∧
         ∀ p ∈ letterPairs, isUsed (_appendSuffix MX (uniqBase b0) p) = true)) := by
  rw [uniqueify_eq]
  cases hU : isUsed (uniqBase b0) with
  | false =>
    simp only [Bool.not_false, if_true]
    exact ⟨uniqBase_ne b0, hb, Or.inl hU⟩
  | true =>
    simp only [Bool.not_true, Bool.false_eq_true, if_false]
    cases hF : List.findSome? (fun p =>
        if !(isUsed (_appendSuffix MX (uniqBase b0) p)) then
          some (_appendSuffix MX (uniqBase b0) p)
        else none) letterPairs with
    | some cand =>
      obtain ⟨p, hp, hfp⟩ := findSome_mem_of_eq_some _ _ _ hF
      have hplen : p.length = 2 := letterPairs_len p hp
      cases hc : isUsed (_appendSuffix MX (uniqBase b0) p) with
      | true => simp [hc] at hfp
      | false =>
        simp only [hc, Bool.not_false, if_true, Option.some.injEq] at hfp
        subst hfp
        exact ⟨appendSuffix_ne MX _ p (len_two_ne_empty hplen),
               appendSuffix_le MX _ p (by omega), Or.inl hc⟩
    | none =>
      have hsfxd : (upperStr ⟨(now.data.reverse.take 2).reverse⟩).data ≠ [] := by
        have hnd : now.data ≠ [] := by
          intro he
          exact hnow (by rw [String.ext_iff]; exact he)
        have hrev : now.data.reverse ≠ [] := by simpa using hnd
        have htk : now.data.reverse.take 2 ≠ [] := take_ne_nil_of_pos (by omega) hrev
        show ((now.data.reverse.take 2).reverse.map asciiUpper) ≠ []
        simpa using htk
      have hsfx : upperStr ⟨(now.data.reverse.take 2).reverse⟩ ≠ "" := by
        intro he
        rw [String.ext_iff] at he
        exact hsfxd he
      have hfbne : (_appendSuffix MX (uniqBase b0)
          (upperStr ⟨(now.data.reverse.take 2).reverse⟩)).data ≠ [] := by
        have hne := appendSuffix_ne MX (uniqBase b0) _ hsfx
        intro he
        exact hne (by rw [String.ext_iff]; exact he)
      refine ⟨mk_ne_empty (take_ne_nil_of_pos (by omega) hfbne), ?_, ?_⟩
      · show ((_appendSuffix MX (uniqBase b0) _).data.take MX).length ≤ MX
        rw [List.length_take]
        exact min_le_left _ _
      · refine Or.inr ⟨trivial, fun p hp => ?_⟩
        have hfn := findSome_forall_none _ _ hF p hp
        cases hc : isUsed (_appendSuffix MX (uniqBase b0) p) with
        | true => rfl
        | false => simp [hc] at hfn

end SkuGen

/-- C4: for every max length `MX ≥ 3`, imperfect code, titles, options array,
`isUsed` predicate and (nonempty) base-36 clock string, `generate` returns a
nonempty SKU of length at most `MX`; the returned SKU is fresh
(`isUsed` of it is `false`) **or** the base and all 676 two-letter-suffixed
candidates were already used, in which case the clock fallback is returned
without any freshness check. -/
theorem C4_generate_bound (MX : ℕ) (IM pt vt : String) (optsArr : List String)
    (isUsed : String → Bool) (now : String) (h3 : 3 ≤ MX) (hnow : now ≠ "") :
    SkuGen.generate MX IM pt vt isUsed optsArr now ≠ "" ∧
    (SkuGen.generate MX IM pt vt isUsed optsArr now).length ≤ MX ∧
    (isUsed (SkuGen.generate MX IM pt vt isUsed optsArr now) = false ∨
      (isUsed (SkuGen.uniqBase (SkuGen.generateBase MX IM pt vt optsArr)) = true ∧
       ∀ p ∈ SkuGen.letterPairs,
         isUsed (SkuGen._appendSuffix MX
           (SkuGen.uniqBase (SkuGen.generateBase MX IM pt vt optsArr)) p) = true)) := by
  have hb : (SkuGen.uniqBase (SkuGen.generateBase MX IM pt vt optsArr)).length ≤ MX :=
    SkuGen.uniqBase_le MX _ h3 (SkuGen.generateBase_le MX IM pt vt optsArr h3)
  exact SkuGen.uniqueify_spec MX (SkuGen.generateBase MX IM pt vt optsArr) isUsed now hb h3 hnow

set_option maxRecDepth 8000 in
/-- C4: counterexample to the claimed unconditional freshness — when every
SKU is already used, `generate` still returns the unchecked clock fallback
`XXX-AB`, on which `isUsed` is `true`, not `false`. -/
theorem C4_generate_bound_cx :
    SkuGen.generate 20 "IM" "" "" (fun _ => true) [] "ab" = "XXX-AB" ∧
    (fun _ => true : String → Bool) "XXX-AB" = true := by
  exact ⟨by decide, rfl⟩

/-- C4: witness — the bound and freshness at a concrete input where nothing
is used yet. -/
theorem C4_generate_bound_witness :
    SkuGen.generate 20 "IM" "" "" (fun _ => false) [] "ab" ≠ "" ∧
    (SkuGen.generate 20 "IM" "" "" (fun _ => false) [] "ab").length ≤ 20 :=
  ⟨(C4_generate_bound 20 "IM" "" "" [] (fun _ => false) "ab" (by decide) (by decide)).1,
   (C4_generate_bound 20 "IM" "" "" [] (fun _ => false) "ab" (by decide) (by decide)).2.1⟩
